import Mathlib

/-!
Shallow embedding of the mcp-sinstaller lifecycle core and proofs about it.

Python strings are modelled as `List Char`; Python dicts as insertion-ordered
association lists; external tool invocations (`CommandRunner.run`) as a
deterministic oracle `List String → CmdResult`; the filesystem as an
association list from paths to file contents.  Each definition is translated
from the named source function.
-/

namespace McpSinstaller

/-! ## Python-string primitives (`str.strip`, slicing, `startswith`) -/

/-- ASCII whitespace recognised by Python's default `str.strip`. -/
def isPyWs (c : Char) : Bool :=
  [' ', '\t', '\n', '\r', '\x0b', '\x0c'].contains c

/-- Drop trailing characters satisfying `isPyWs`. -/
def dropTrailingWs (l : List Char) : List Char :=
  (l.reverse.dropWhile isPyWs).reverse

/-- Model of Python `str.strip()` (no arguments): remove leading and trailing
whitespace. -/
def pyStrip (l : List Char) : List Char :=
  dropTrailingWs (l.dropWhile isPyWs)

/-- Model of Python `s.startswith(pat)`. -/
def startsWithL : List Char → List Char → Bool
  | [], _ => true
  | _ :: _, [] => false
  | p :: ps, c :: cs => p == c && startsWithL ps cs

/-- Model of the Python slice `s[a:-b]` (for `a, b ≥ 0`): drop the first `a`
characters and the last `b` characters, empty when the bounds cross. -/
def sliceDropEnds (a b : Nat) (l : List Char) : List Char :=
  (l.drop a).take ((l.drop a).length - b)

/-! ## JSON values and dict operations

Python dicts are modelled as insertion-ordered association lists; assignment
to an existing key updates the value in place, assignment to a fresh key
appends. -/

/-- Structured data produced by `json.loads` (numbers restricted to the
integers, which covers every literal the plan schema uses). -/
inductive Json where
  | jnull
  | jbool (b : Bool)
  | jnum (n : Int)
  | jstr (s : String)
  | jarr (items : List Json)
  | jmap (pairs : List (String × Json))

mutual

/-- Decidable equality of JSON values. -/
def Json.decEq : (a b : Json) → Decidable (a = b)
  | .jnull, .jnull => isTrue rfl
  | .jbool a, .jbool b =>
      match Bool.decEq a b with
      | isTrue h => isTrue (h ▸ rfl)
      | isFalse h => isFalse (fun hh => h (Json.jbool.inj hh))
  | .jnum a, .jnum b =>
      match Int.decEq a b with
      | isTrue h => isTrue (h ▸ rfl)
      | isFalse h => isFalse (fun hh => h (Json.jnum.inj hh))
  | .jstr a, .jstr b =>
      match String.decEq a b with
      | isTrue h => isTrue (h ▸ rfl)
      | isFalse h => isFalse (fun hh => h (Json.jstr.inj hh))
  | .jarr a, .jarr b =>
      match Json.decEqList a b with
      | isTrue h => isTrue (h ▸ rfl)
      | isFalse h => isFalse (fun hh => h (Json.jarr.inj hh))
  | .jmap a, .jmap b =>
      match Json.decEqObj a b with
      | isTrue h => isTrue (h ▸ rfl)
      | isFalse h => isFalse (fun hh => h (Json.jmap.inj hh))
  | .jnull, .jbool _ | .jnull, .jnum _ | .jnull, .jstr _ | .jnull, .jarr _
  | .jnull, .jmap _ | .jbool _, .jnull | .jbool _, .jnum _ | .jbool _, .jstr _
  | .jbool _, .jarr _ | .jbool _, .jmap _ | .jnum _, .jnull | .jnum _, .jbool _
  | .jnum _, .jstr _ | .jnum _, .jarr _ | .jnum _, .jmap _ | .jstr _, .jnull
  | .jstr _, .jbool _ | .jstr _, .jnum _ | .jstr _, .jarr _ | .jstr _, .jmap _
  | .jarr _, .jnull | .jarr _, .jbool _ | .jarr _, .jnum _ | .jarr _, .jstr _
  | .jarr _, .jmap _ | .jmap _, .jnull | .jmap _, .jbool _ | .jmap _, .jnum _
  | .jmap _, .jstr _ | .jmap _, .jarr _ => isFalse (fun hh => Json.noConfusion hh)

/-- Decidable equality of JSON arrays. -/
def Json.decEqList : (a b : List Json) → Decidable (a = b)
  | [], [] => isTrue rfl
  | [], _ :: _ => isFalse (fun hh => List.noConfusion hh)
  | _ :: _, [] => isFalse (fun hh => List.noConfusion hh)
  | x :: xs, y :: ys =>
      match Json.decEq x y with
      | isFalse h => isFalse (fun hh => h (List.cons.inj hh).1)
      | isTrue h1 =>
        match Json.decEqList xs ys with
        | isTrue h2 => isTrue (h1 ▸ h2 ▸ rfl)
        | isFalse h => isFalse (fun hh => h (List.cons.inj hh).2)

/-- Decidable equality of JSON object field lists. -/
def Json.decEqObj : (a b : List (String × Json)) → Decidable (a = b)
  | [], [] => isTrue rfl
  | [], _ :: _ => isFalse (fun hh => List.noConfusion hh)
  | _ :: _, [] => isFalse (fun hh => List.noConfusion hh)
  | (k, v) :: xs, (k2, v2) :: ys =>
      match String.decEq k k2 with
      | isFalse h =>
          isFalse (fun hh => h (congrArg Prod.fst (List.cons.inj hh).1))
      | isTrue hk =>
        match Json.decEq v v2 with
        | isFalse h =>
            isFalse (fun hh => h (congrArg Prod.snd (List.cons.inj hh).1))
        | isTrue hv =>
          match Json.decEqObj xs ys with
          | isTrue h2 => isTrue (hk ▸ hv ▸ h2 ▸ rfl)
          | isFalse h => isFalse (fun hh => h (List.cons.inj hh).2)

end

instance : DecidableEq Json := Json.decEq

/-- Dict lookup: first binding of the key (keys are unique by construction). -/
def getA : List (String × Json) → String → Option Json
  | [], _ => none
  | (k, v) :: rest, key => if k = key then some v else getA rest key

/-- Model of Python `key in dict`. -/
def hasKey (m : List (String × Json)) (k : String) : Bool :=
  (getA m k).isSome

/-- Model of Python `d[k] = v`: replace in place when present, append when
fresh. -/
def setKeyA : List (String × Json) → String → Json → List (String × Json)
  | [], k, v => [(k, v)]
  | (k0, v0) :: rest, k, v =>
      if k0 = k then (k0, v) :: rest else (k0, v0) :: setKeyA rest k v

/-- Model of Python `d.setdefault(k, v)`. -/
def setdefaultA (m : List (String × Json)) (k : String) (v : Json) :
    List (String × Json) :=
  if hasKey m k then m else m ++ [(k, v)]

/-! ## A model of `json.loads`

A fueled recursive-descent parser for the JSON fragment the plan payloads
use (objects, arrays, strings with the single-character escapes, integer
numbers, `true`/`false`/`null`).  `none` models `json.JSONDecodeError`. -/

/-- JSON inter-token whitespace. -/
def jsonWs (c : Char) : Bool :=
  [' ', '\t', '\n', '\r'].contains c

/-- The single-character string escapes of the JSON grammar. -/
def escChar : Char → Option Char
  | 'n' => some '\n'
  | 't' => some '\t'
  | 'r' => some '\r'
  | 'b' => some '\x08'
  | 'f' => some '\x0c'
  | '/' => some '/'
  | '\\' => some '\\'
  | '"' => some '"'
  | _ => none

/-- Parse the body of a string literal after the opening quote; returns the
decoded characters and the remainder after the closing quote. -/
def parseStrBody : List Char → Option (List Char × List Char)
  | [] => none
  | '"' :: rest => some ([], rest)
  | '\\' :: rest =>
      match rest with
      | [] => none
      | e :: rest2 =>
          match escChar e with
          | none => none
          | some c => (parseStrBody rest2).map fun pr => (c :: pr.1, pr.2)
  | c :: rest =>
      if c.toNat < 32 then none
      else (parseStrBody rest).map fun pr => (c :: pr.1, pr.2)

/-- Parse a nonempty run of decimal digits as a natural number. -/
def parseNatLit (l : List Char) : Option (Nat × List Char) :=
  let ds := l.takeWhile Char.isDigit
  if ds.isEmpty then none
  else some (ds.foldl (fun a c => 10 * a + (c.toNat - 48)) 0, l.drop ds.length)

mutual

/-- Parse one JSON value; `fuel` bounds the recursion depth. -/
def parseVal : Nat → List Char → Option (Json × List Char)
  | 0, _ => none
  | fuel + 1, l =>
    match l.dropWhile jsonWs with
    | [] => none
    | '\x7b' :: r =>
        (match r.dropWhile jsonWs with
         | '\x7d' :: r2 => some (.jmap [], r2)
         | _ => parseMembers fuel r [])
    | '[' :: r =>
        (match r.dropWhile jsonWs with
         | ']' :: r2 => some (.jarr [], r2)
         | _ => parseItems fuel r [])
    | '"' :: r => (parseStrBody r).map fun pr => (.jstr ⟨pr.1⟩, pr.2)
    | 't' :: r =>
        if startsWithL "rue".data r then some (.jbool true, r.drop 3) else none
    | 'f' :: r =>
        if startsWithL "alse".data r then some (.jbool false, r.drop 4) else none
    | 'n' :: r =>
        if startsWithL "ull".data r then some (.jnull, r.drop 3) else none
    | '-' :: r => (parseNatLit r).map fun pr => (.jnum (-(pr.1 : Int)), pr.2)
    | c :: r =>
        if c.isDigit then (parseNatLit (c :: r)).map fun pr => (.jnum pr.1, pr.2)
        else none

/-- Parse the members of an object after the opening brace (last duplicate of
a key wins, as in Python). -/
def parseMembers : Nat → List Char → List (String × Json) →
    Option (Json × List Char)
  | 0, _, _ => none
  | fuel + 1, l, acc =>
    match l.dropWhile jsonWs with
    | '"' :: r =>
      (match parseStrBody r with
       | none => none
       | some (key, r2) =>
         match r2.dropWhile jsonWs with
         | ':' :: r3 =>
           (match parseVal fuel r3 with
            | none => none
            | some (v, r4) =>
              match r4.dropWhile jsonWs with
              | ',' :: r5 => parseMembers fuel r5 (setKeyA acc ⟨key⟩ v)
              | '\x7d' :: r5 => some (.jmap (setKeyA acc ⟨key⟩ v), r5)
              | _ => none)
         | _ => none)
    | _ => none

/-- Parse the items of an array after the opening bracket. -/
def parseItems : Nat → List Char → List Json → Option (Json × List Char)
  | 0, _, _ => none
  | fuel + 1, l, acc =>
    match parseVal fuel l with
    | none => none
    | some (v, r) =>
      match r.dropWhile jsonWs with
      | ',' :: r2 => parseItems fuel r2 (acc ++ [v])
      | ']' :: r2 => some (.jarr (acc ++ [v]), r2)
      | _ => none

end

/-- Model of `json.loads`: parse one value, tolerate surrounding whitespace,
reject trailing garbage. -/
def json_loads (l : List Char) : Option Json :=
  match parseVal (l.length + 2) l with
  | some (v, rest) => if rest.dropWhile jsonWs = [] then some v else none
  | none => none

/-! ## `DockerService.parse_plan` (Plan Validator) -/

/-- Outcome of `DockerService.parse_plan`, one constructor per return site:
`ok` is the `{"success": True, "plan": ...}` dict, `missingField f` the
"Missing required field in Docker plan: f" error, `invalidPorts` the
"Ports must be a dictionary ..." error, `invalidJson` the
`json.JSONDecodeError` handler (carrying the truncated `raw_response`), and
`pyError` the generic `except Exception` handler. -/
inductive PlanResult where
  | ok (plan : List (String × Json))
  | missingField (field : String)
  | invalidPorts
  | invalidJson (raw : List Char)
  | pyError (raw : List Char)
deriving DecidableEq

/-- The four required plan fields, in the order the source checks them. -/
def required_fields : List String :=
  ["dockerfile_content", "image_name", "container_name", "ports"]

/-- First required field absent from the dict, if any. -/
def firstMissing : List String → List (String × Json) → Option String
  | [], _ => none
  | f :: rest, m => if hasKey m f then firstMissing rest m else some f

/-- Membership of a name in a JSON array, as Python `field in list`. -/
def arrHasField (xs : List Json) (f : String) : Bool :=
  xs.any (fun x => x = .jstr f)

/-- First required field not occurring as an element of the array. -/
def firstMissingArr : List String → List Json → Option String
  | [], _ => none
  | f :: rest, xs => if arrHasField xs f then firstMissingArr rest xs else some f

/-- Contiguous-substring test, as Python `pat in str`. -/
def hasSub : List Char → List Char → Bool
  | s, pat =>
    if startsWithL pat s then true
    else match s with
      | [] => false
      | _ :: rest => hasSub rest pat

/-- First required field not occurring as a substring of the string. -/
def firstMissingSub : List String → List Char → Option String
  | [], _ => none
  | f :: rest, s => if hasSub s f.data then firstMissingSub rest s else some f

/-- The `plan.setdefault(...)` block: fill the six optional fields with their
defaults. -/
def applyDefaults (m : List (String × Json)) : List (String × Json) :=
  setdefaultA (setdefaultA (setdefaultA (setdefaultA (setdefaultA
    (setdefaultA m "environment_variables" (.jmap []))
    "required_secrets" (.jarr []))
    "volumes" (.jmap []))
    "startup_command" .jnull)
    "health_check" .jnull)
    "has_existing_dockerfile" (.jbool false)

/-- The post-parse stage of `parse_plan` (docker_service.py lines 26-41),
applied to the structured value `json.loads` produced.  `raw` is the
(re-assigned) `response_text`, used by the exception handlers.  For a
non-dict payload Python's `field not in plan` is element membership (list),
substring membership (str) or a `TypeError` (other types), and indexing
`plan["ports"]` on a non-dict raises; both routes end in the generic
`except Exception` handler. -/
def validate_fields (raw : List Char) : Json → PlanResult
  | .jmap m =>
    match firstMissing required_fields m with
    | some f => .missingField f
    | none =>
      match getA m "ports" with
      | some (.jmap _) => .ok (applyDefaults m)
      | _ => .invalidPorts
  | .jarr xs =>
    (match firstMissingArr required_fields xs with
     | some f => .missingField f
     | none => .pyError raw)
  | .jstr s =>
    (match firstMissingSub required_fields s.data with
     | some f => .missingField f
     | none => .pyError raw)
  | _ => .pyError raw

/-- The `raw_response` excerpt: truncate to 500 characters with an ellipsis. -/
def truncRaw (l : List Char) : List Char :=
  if 500 < l.length then l.take 500 ++ "...".data else l

/-- The fence-stripping step of `parse_plan` (lines 19-22), applied to the
already-stripped text: remove a leading triple-backtick fence (with or
without the `json` tag) by the source's exact `[7:-3]` / `[3:-3]` slices. -/
def stripFence (t0 : List Char) : List Char :=
  if startsWithL "```json".data t0 then pyStrip (sliceDropEnds 7 3 t0)
  else if startsWithL "```".data t0 then pyStrip (sliceDropEnds 3 3 t0)
  else t0

/-- The parse-and-check tail of `parse_plan`: `t` is the re-assigned
`response_text`, used both as parser input and as the diagnostic excerpt. -/
def loadAndValidate (t : List Char) : PlanResult :=
  match json_loads t with
  | none => .invalidJson (truncRaw t)
  | some j => validate_fields t j

/-- Model of `DockerService.parse_plan`: strip whitespace, strip a leading
code fence, parse, then check the schema. -/
def parse_plan (response_text : List Char) : PlanResult :=
  loadAndValidate (stripFence (pyStrip response_text))

/-- The six optional plan fields with their defaults, in the order the
`setdefault` block fills them. -/
def optional_defaults : List (String × Json) :=
  [("environment_variables", .jmap []), ("required_secrets", .jarr []),
   ("volumes", .jmap []), ("startup_command", .jnull), ("health_check", .jnull),
   ("has_existing_dockerfile", .jbool false)]

/-! ### Dict lemmas -/

theorem getA_append_none {l1 : List (String × Json)} (l2 : List (String × Json))
    {k : String} (h : getA l1 k = none) : getA (l1 ++ l2) k = getA l2 k := by
  induction l1 with
  | nil => rfl
  | cons kv rest ih =>
      obtain ⟨k0, v0⟩ := kv
      by_cases hk : k0 = k
      · simp [getA, hk] at h
      · simp only [getA, hk, if_false, List.cons_append] at h ⊢
        exact ih h

theorem getA_append_some {l1 : List (String × Json)} (l2 : List (String × Json))
    {k : String} {v : Json} (h : getA l1 k = some v) :
    getA (l1 ++ l2) k = some v := by
  induction l1 with
  | nil => simp [getA] at h
  | cons kv rest ih =>
      obtain ⟨k0, v0⟩ := kv
      by_cases hk : k0 = k
      · simp only [getA, hk, if_true] at h
        simp only [List.cons_append, getA, hk, if_true]
        exact h
      · simp only [getA, hk, if_false, List.cons_append] at h ⊢
        exact ih h

theorem getA_none_of_keys {m : List (String × Json)} {k : String}
    (hkeys : ∀ kv ∈ m, kv.1 ∈ required_fields) (hk : k ∉ required_fields) :
    getA m k = none := by
  induction m with
  | nil => rfl
  | cons kv rest ih =>
      obtain ⟨k0, v0⟩ := kv
      have hk0 : k0 ∈ required_fields := hkeys (k0, v0) (by simp)
      have hne : k0 ≠ k := fun h => hk (h ▸ hk0)
      simp only [getA, hne, if_false]
      exact ih fun kv hkv => hkeys kv (by simp [hkv])

theorem firstMissing_eq_none {fs : List String} {m : List (String × Json)}
    (h : ∀ f ∈ fs, hasKey m f = true) : firstMissing fs m = none := by
  induction fs with
  | nil => rfl
  | cons f rest ih =>
      simp only [firstMissing, h f (by simp), if_true]
      exact ih fun g hg => h g (by simp [hg])

theorem setdefaultA_absent {m : List (String × Json)} {k : String}
    (v : Json) (h : getA m k = none) : setdefaultA m k v = m ++ [(k, v)] := by
  simp [setdefaultA, hasKey, h]

/-- With none of the six optional keys present, the `setdefault` block
appends exactly the six documented defaults, in order. -/
theorem applyDefaults_minimal {m : List (String × Json)}
    (h : ∀ kv ∈ optional_defaults, getA m kv.1 = none) :
    applyDefaults m = m ++ optional_defaults := by
  have h1 : getA m "environment_variables" = none :=
    h ("environment_variables", .jmap []) (by simp [optional_defaults])
  have h2 : getA m "required_secrets" = none :=
    h ("required_secrets", .jarr []) (by simp [optional_defaults])
  have h3 : getA m "volumes" = none :=
    h ("volumes", .jmap []) (by simp [optional_defaults])
  have h4 : getA m "startup_command" = none :=
    h ("startup_command", .jnull) (by simp [optional_defaults])
  have h5 : getA m "health_check" = none :=
    h ("health_check", .jnull) (by simp [optional_defaults])
  have h6 : getA m "has_existing_dockerfile" = none :=
    h ("has_existing_dockerfile", .jbool false) (by simp [optional_defaults])
  have e1 : setdefaultA m "environment_variables" (.jmap []) =
      m ++ [("environment_variables", Json.jmap [])] := setdefaultA_absent _ h1
  have e2 : setdefaultA (m ++ [("environment_variables", Json.jmap [])])
      "required_secrets" (.jarr []) =
      m ++ [("environment_variables", Json.jmap []),
            ("required_secrets", Json.jarr [])] := by
    rw [setdefaultA_absent _ (by rw [getA_append_none _ h2]; rfl)]
    simp
  have e3 : setdefaultA (m ++ [("environment_variables", Json.jmap []),
      ("required_secrets", Json.jarr [])]) "volumes" (.jmap []) =
      m ++ [("environment_variables", Json.jmap []),
            ("required_secrets", Json.jarr []), ("volumes", Json.jmap [])] := by
    rw [setdefaultA_absent _ (by rw [getA_append_none _ h3]; rfl)]
    simp
  have e4 : setdefaultA (m ++ [("environment_variables", Json.jmap []),
      ("required_secrets", Json.jarr []), ("volumes", Json.jmap [])])
      "startup_command" .jnull =
      m ++ [("environment_variables", Json.jmap []),
            ("required_secrets", Json.jarr []), ("volumes", Json.jmap []),
            ("startup_command", Json.jnull)] := by
    rw [setdefaultA_absent _ (by rw [getA_append_none _ h4]; rfl)]
    simp
  have e5 : setdefaultA (m ++ [("environment_variables", Json.jmap []),
      ("required_secrets", Json.jarr []), ("volumes", Json.jmap []),
      ("startup_command", Json.jnull)]) "health_check" .jnull =
      m ++ [("environment_variables", Json.jmap []),
            ("required_secrets", Json.jarr []), ("volumes", Json.jmap []),
            ("startup_command", Json.jnull), ("health_check", Json.jnull)] := by
    rw [setdefaultA_absent _ (by rw [getA_append_none _ h5]; rfl)]
    simp
  have e6 : setdefaultA (m ++ [("environment_variables", Json.jmap []),
      ("required_secrets", Json.jarr []), ("volumes", Json.jmap []),
      ("startup_command", Json.jnull), ("health_check", Json.jnull)])
      "has_existing_dockerfile" (.jbool false) = m ++ optional_defaults := by
    rw [setdefaultA_absent _ (by rw [getA_append_none _ h6]; rfl)]
    simp [optional_defaults]
  unfold applyDefaults
  rw [e1, e2, e3, e4, e5, e6]

/-! ### C4 — a list-shaped `ports` field -/

/-- C4 counterexample: the claim says a list-shaped `ports` yields
`InvalidPortsShape` "regardless of the validity or presence of the other
fields", but the source checks required-field presence first: the payload
`{"ports": []}` is reported as a missing `dockerfile_content`, not as an
invalid ports shape. -/
theorem ports_list_presence_cex :
    parse_plan "\x7b\"ports\": []\x7d".data = .missingField "dockerfile_content"
      ∧ PlanResult.missingField "dockerfile_content" ≠ .invalidPorts := by
  constructor
  · decide
  · intro h
    exact PlanResult.noConfusion h

/-- C4 (amended): for every parsed payload in which all four required fields
are present and `ports` is a list, validation returns the
`InvalidPortsShape` error, regardless of the other fields' values. -/
theorem ports_list_invalid_shape (raw : List Char)
    (m : List (String × Json)) (xs : List Json)
    (hreq : ∀ f ∈ required_fields, hasKey m f = true)
    (hports : getA m "ports" = some (.jarr xs)) :
    validate_fields raw (.jmap m) = .invalidPorts := by
  simp only [validate_fields]
  rw [firstMissing_eq_none hreq, hports]

/-- C4 witness: a concrete payload with all four required fields and a
list-shaped `ports`. -/
theorem ports_list_invalid_shape_witness :
    (∀ f ∈ required_fields,
        hasKey [("dockerfile_content", Json.jstr "FROM python"),
                ("image_name", Json.jstr "img"), ("container_name", Json.jstr "c"),
                ("ports", Json.jarr [Json.jstr "8000"])] f = true)
      ∧ validate_fields [] (.jmap
          [("dockerfile_content", Json.jstr "FROM python"),
           ("image_name", Json.jstr "img"), ("container_name", Json.jstr "c"),
           ("ports", Json.jarr [Json.jstr "8000"])]) = .invalidPorts := by
  refine ⟨by decide, ?_⟩
  exact ports_list_invalid_shape [] _ [Json.jstr "8000"] (by decide) (by decide)

/-! ### C6 — minimal payload gets the documented defaults -/

/-- C6: a minimal valid payload containing only the four required fields
validates successfully, and the resulting plan has all six optional fields
present with their documented defaults. -/
theorem minimal_plan_defaults (raw : List Char)
    (m : List (String × Json)) (po : List (String × Json))
    (hkeys : ∀ kv ∈ m, kv.1 ∈ required_fields)
    (hreq : ∀ f ∈ required_fields, hasKey m f = true)
    (hports : getA m "ports" = some (.jmap po)) :
    ∃ plan, validate_fields raw (.jmap m) = .ok plan
      ∧ getA plan "environment_variables" = some (.jmap [])
      ∧ getA plan "required_secrets" = some (.jarr [])
      ∧ getA plan "volumes" = some (.jmap [])
      ∧ getA plan "startup_command" = some .jnull
      ∧ getA plan "health_check" = some .jnull
      ∧ getA plan "has_existing_dockerfile" = some (.jbool false) := by
  refine ⟨m ++ optional_defaults, ?_, ?_, ?_, ?_, ?_, ?_, ?_⟩
  · have hv : validate_fields raw (.jmap m) = .ok (applyDefaults m) := by
      simp only [validate_fields]
      rw [firstMissing_eq_none hreq, hports]
    rw [hv, applyDefaults_minimal]
    intro kv hkv
    refine getA_none_of_keys hkeys ?_
    fin_cases hkv <;> decide
  all_goals rw [getA_append_none _ (getA_none_of_keys hkeys (by decide))]
  all_goals rfl

/-- C6 witness: the minimal payload with exactly the four required fields. -/
theorem minimal_plan_defaults_witness :
    (∀ kv ∈ [("dockerfile_content", Json.jstr "FROM python"),
             ("image_name", Json.jstr "img"), ("container_name", Json.jstr "c"),
             ("ports", Json.jmap [])], kv.1 ∈ required_fields)
      ∧ ∃ plan, validate_fields []
          (.jmap [("dockerfile_content", Json.jstr "FROM python"),
                 ("image_name", Json.jstr "img"), ("container_name", Json.jstr "c"),
                 ("ports", Json.jmap [])]) = .ok plan
        ∧ getA plan "environment_variables" = some (.jmap [])
        ∧ getA plan "required_secrets" = some (.jarr [])
        ∧ getA plan "volumes" = some (.jmap [])
        ∧ getA plan "startup_command" = some .jnull
        ∧ getA plan "health_check" = some .jnull
        ∧ getA plan "has_existing_dockerfile" = some (.jbool false) := by
  refine ⟨by decide, ?_⟩
  exact minimal_plan_defaults [] _ [] (by decide) (by decide) (by decide)

/-! ### C5 — code-fence wrapping

`wrapJson p` and `wrapBare p` are the two fenced forms of a payload `p`. -/

/-- Wrap a payload in a ```` ```json ```` fence. -/
def wrapJson (p : List Char) : List Char :=
  "```json\n".data ++ p ++ "\n```".data

/-- Wrap a payload in a plain ```` ``` ```` fence. -/
def wrapBare (p : List Char) : List Char :=
  "```\n".data ++ p ++ "\n```".data

theorem pyStrip_eq_self {l : List Char}
    (h1 : ∀ c, l.head? = some c → isPyWs c = false)
    (h2 : ∀ c, l.getLast? = some c → isPyWs c = false) : pyStrip l = l := by
  unfold pyStrip dropTrailingWs
  have hd : l.dropWhile isPyWs = l := by
    cases l with
    | nil => rfl
    | cons a as => exact List.dropWhile_cons_of_neg (by simp [h1 a rfl])
  rw [hd]
  have hr : l.reverse.dropWhile isPyWs = l.reverse := by
    cases hrv : l.reverse with
    | nil => rfl
    | cons a as =>
        have hla : l.getLast? = some a := by
          rw [← List.head?_reverse, hrv]
          rfl
        exact List.dropWhile_cons_of_neg (by simp [h2 a hla])
  rw [hr, List.reverse_reverse]

theorem pyStrip_cons_nl (l : List Char) : pyStrip ('\n' :: l) = pyStrip l := by
  unfold pyStrip
  rw [List.dropWhile_cons_of_pos (by decide)]

theorem dropTrailingWs_concat_nl (l : List Char) :
    dropTrailingWs (l ++ ['\n']) = dropTrailingWs l := by
  unfold dropTrailingWs
  rw [List.reverse_append]
  simp only [List.reverse_cons, List.reverse_nil, List.nil_append,
    List.cons_append]
  rw [List.dropWhile_cons_of_pos (by decide)]

theorem pyStrip_concat_nl (l : List Char) : pyStrip (l ++ ['\n']) = pyStrip l := by
  unfold pyStrip
  rw [List.dropWhile_append]
  by_cases he : (l.dropWhile isPyWs).isEmpty = true
  · rw [if_pos he]
    rw [List.isEmpty_iff] at he
    rw [he]
    rfl
  · rw [if_neg he]
    exact dropTrailingWs_concat_nl _

theorem pyStrip_nl_wrap (p : List Char) :
    pyStrip ('\n' :: (p ++ ['\n'])) = pyStrip p := by
  rw [pyStrip_cons_nl, pyStrip_concat_nl]

theorem slice_wrapJson (p : List Char) :
    sliceDropEnds 7 3 (wrapJson p) = '\n' :: (p ++ ['\n']) := by
  unfold wrapJson sliceDropEnds
  have hdrop : (("```json\n".data ++ p ++ "\n```".data).drop 7) =
      '\n' :: (p ++ "\n```".data) := rfl
  rw [hdrop]
  have hlen : ('\n' :: (p ++ "\n```".data)).length - 3 = p.length + 2 := by
    simp [List.length_append]
  rw [hlen]
  show List.take (p.length + 1 + 1) ('\n' :: (p ++ "\n```".data)) = _
  rw [List.take_succ_cons]
  have := @List.take_append Char p "\n```".data 1
  rw [this]
  rfl

theorem slice_wrapBare (p : List Char) :
    sliceDropEnds 3 3 (wrapBare p) = '\n' :: (p ++ ['\n']) := by
  unfold wrapBare sliceDropEnds
  have hdrop : (("```\n".data ++ p ++ "\n```".data).drop 3) =
      '\n' :: (p ++ "\n```".data) := rfl
  rw [hdrop]
  have hlen : ('\n' :: (p ++ "\n```".data)).length - 3 = p.length + 2 := by
    simp [List.length_append]
  rw [hlen]
  show List.take (p.length + 1 + 1) ('\n' :: (p ++ "\n```".data)) = _
  rw [List.take_succ_cons]
  have := @List.take_append Char p "\n```".data 1
  rw [this]
  rfl

theorem startsWithL_of_append (p1 p2 l : List Char)
    (h : startsWithL (p1 ++ p2) l = true) : startsWithL p1 l = true := by
  induction p1 generalizing l with
  | nil => rfl
  | cons a p1' ih =>
    cases l with
    | nil => simp [startsWithL] at h
    | cons b l' =>
      simp only [List.cons_append, startsWithL, Bool.and_eq_true] at h ⊢
      exact ⟨h.1, ih _ h.2⟩

theorem pyStrip_wrapJson (p : List Char) : pyStrip (wrapJson p) = wrapJson p := by
  refine pyStrip_eq_self ?_ ?_
  · intro c hc
    have hh : (wrapJson p).head? = some '`' := rfl
    rw [hh] at hc
    cases hc
    decide
  · intro c hc
    have hh : (wrapJson p).getLast? = some '`' := by
      unfold wrapJson
      rw [List.getLast?_append]
      rfl
    rw [hh] at hc
    cases hc
    decide

theorem pyStrip_wrapBare (p : List Char) : pyStrip (wrapBare p) = wrapBare p := by
  refine pyStrip_eq_self ?_ ?_
  · intro c hc
    have hh : (wrapBare p).head? = some '`' := rfl
    rw [hh] at hc
    cases hc
    decide
  · intro c hc
    have hh : (wrapBare p).getLast? = some '`' := by
      unfold wrapBare
      rw [List.getLast?_append]
      rfl
    rw [hh] at hc
    cases hc
    decide

theorem stripFence_wrapJson (p : List Char) :
    stripFence (wrapJson p) = pyStrip p := by
  unfold stripFence
  rw [if_pos (by rfl)]
  rw [slice_wrapJson, pyStrip_nl_wrap]

theorem stripFence_wrapBare (p : List Char) :
    stripFence (wrapBare p) = pyStrip p := by
  unfold stripFence
  rw [if_neg (by simp [wrapBare, startsWithL]), if_pos (by rfl)]
  rw [slice_wrapBare, pyStrip_nl_wrap]

/-- C5 counterexample: the claim says wrapping any payload in fences
validates identically, but a payload that itself begins with a fence marker
is fence-stripped when handed in unwrapped and parsed raw when handed in
wrapped — the two runs return different results. -/
theorem fenced_payload_cex :
    parse_plan (wrapJson "```json\n\x7b\x7d\n```".data)
        ≠ parse_plan "```json\n\x7b\x7d\n```".data
      ∧ parse_plan "```json\n\x7b\x7d\n```".data
        = .missingField "dockerfile_content"
      ∧ parse_plan (wrapJson "```json\n\x7b\x7d\n```".data)
        = .invalidJson "```json\n\x7b\x7d\n```".data := by
  refine ⟨by decide, by decide, by decide⟩

/-- C5 (amended): for every payload whose stripped text does not itself
begin with a triple-backtick marker, validating the payload wrapped in
triple-backtick fences (with or without the `json` language tag) yields the
same result as validating the unwrapped payload. -/
theorem fenced_payload_equiv (p : List Char)
    (h : startsWithL "```".data (pyStrip p) = false) :
    parse_plan (wrapJson p) = parse_plan p
      ∧ parse_plan (wrapBare p) = parse_plan p := by
  have h7 : startsWithL "```json".data (pyStrip p) = false := by
    cases hj : startsWithL "```json".data (pyStrip p) with
    | false => rfl
    | true =>
        have := startsWithL_of_append "```".data "json".data (pyStrip p) hj
        rw [this] at h
        exact absurd h (by simp)
  have hplain : stripFence (pyStrip p) = pyStrip p := by
    unfold stripFence
    rw [if_neg (by simp [h7]), if_neg (by simp [h])]
  constructor
  · show loadAndValidate (stripFence (pyStrip (wrapJson p))) = _
    rw [pyStrip_wrapJson, stripFence_wrapJson]
    show _ = loadAndValidate (stripFence (pyStrip p))
    rw [hplain]
  · show loadAndValidate (stripFence (pyStrip (wrapBare p))) = _
    rw [pyStrip_wrapBare, stripFence_wrapBare]
    show _ = loadAndValidate (stripFence (pyStrip p))
    rw [hplain]

/-- C5 witness: a plain JSON-object payload validates identically in all
three presentations. -/
theorem fenced_payload_equiv_witness :
    startsWithL "```".data (pyStrip "\x7b\"ports\": []\x7d".data) = false
      ∧ parse_plan (wrapJson "\x7b\"ports\": []\x7d".data)
          = parse_plan "\x7b\"ports\": []\x7d".data
      ∧ parse_plan (wrapBare "\x7b\"ports\": []\x7d".data)
          = parse_plan "\x7b\"ports\": []\x7d".data := by
  refine ⟨by decide, ?_, ?_⟩
  · exact (fenced_payload_equiv "\x7b\"ports\": []\x7d".data (by decide)).1
  · exact (fenced_payload_equiv "\x7b\"ports\": []\x7d".data (by decide)).2

/-! ## `GitHubService.parse_url` (Identity Resolver)

The three recognised reference shapes are modelled as a deterministic
decomposition that agrees with the source's anchored regular expressions
(`[^/]+` is a maximal nonempty slash-free run; `.` in `(.+)` does not match
a newline; the `$` of the bare shape is modelled as end-of-input).
`none` models the raised `ValueError`. -/

/-- The parsed reference, as the dict `parse_url` returns. -/
structure UrlInfo where
  owner : List Char
  repo : List Char
  branch : List Char
  path : List Char
  server_name : List Char
  clone_url : List Char
deriving DecidableEq

/-- Split a maximal nonempty slash-free run followed by a literal `/`
(the regex fragment `([^/]+)/`), returning the run and the remainder. -/
def splitSeg (l : List Char) : Option (List Char × List Char) :=
  if (l.takeWhile (fun c => c != '/')).isEmpty then none
  else match l.drop (l.takeWhile (fun c => c != '/')).length with
    | '/' :: rest => some (l.takeWhile (fun c => c != '/'), rest)
    | _ => none

/-- Match `([^/]+)/([^/]+)/<tag>/([^/]+)/(.+)` against the text after the
host prefix, returning `(owner, repo, branch, path)`. -/
def matchTreeBlob (tag rest : List Char) :
    Option (List Char × List Char × List Char × List Char) :=
  match splitSeg rest with
  | none => none
  | some (owner, r1) =>
    match splitSeg r1 with
    | none => none
    | some (repo, r2) =>
      if startsWithL (tag ++ ['/']) r2 then
        match splitSeg (r2.drop (tag.length + 1)) with
        | none => none
        | some (branch, r4) =>
          if (r4.takeWhile (fun c => c != '\n')).isEmpty then none
          else some (owner, repo, branch, r4.takeWhile (fun c => c != '\n'))
      else none

/-- Match `([^/]+)/([^/]+)/?$` against the text after the host prefix. -/
def matchBare (rest : List Char) : Option (List Char × List Char) :=
  match splitSeg rest with
  | none => none
  | some (owner, r1) =>
    if (r1.takeWhile (fun c => c != '/')).isEmpty then none
    else match r1.drop (r1.takeWhile (fun c => c != '/')).length with
      | [] => some (owner, r1.takeWhile (fun c => c != '/'))
      | ['/'] => some (owner, r1.takeWhile (fun c => c != '/'))
      | _ => none

/-- Split on `/`. -/
def splitOnSlash : List Char → List (List Char)
  | [] => [[]]
  | c :: rest =>
    if c = '/' then [] :: splitOnSlash rest
    else
      match splitOnSlash rest with
      | [] => [[c]]
      | g :: gs => (c :: g) :: gs

/-- Model of `pathlib.Path(path).name`: the last path component, with empty
and `.` components normalised away (`Path("a/b/").name == "b"`,
`Path(".").name == ""`). -/
def pathName (p : List Char) : List Char :=
  ((splitOnSlash p).filter
    (fun seg => !seg.isEmpty && seg != ['.'])).getLastD []

/-- The derived `clone_url` field. -/
def cloneUrl (owner repo : List Char) : List Char :=
  "https://github.com/".data ++ owner ++ "/".data ++ repo ++ ".git".data

/-- Model of `GitHubService.parse_url`: try the `tree`, `blob` and bare
shapes in order; derive `server_name` as owner-repo(-lastSegment). -/
def parse_url (url : List Char) : Option UrlInfo :=
  if startsWithL "https://github.com/".data url then
    match matchTreeBlob "tree".data (url.drop 19) with
    | some (owner, repo, branch, path) =>
        some ⟨owner, repo, branch, path,
          owner ++ "-".data ++ repo ++ "-".data ++ pathName path,
          cloneUrl owner repo⟩
    | none =>
      match matchTreeBlob "blob".data (url.drop 19) with
      | some (owner, repo, branch, path) =>
          some ⟨owner, repo, branch, path,
            owner ++ "-".data ++ repo ++ "-".data ++ pathName path,
            cloneUrl owner repo⟩
      | none =>
        match matchBare (url.drop 19) with
        | some (owner, repo) =>
            some ⟨owner, repo, "main".data, [],
              owner ++ "-".data ++ repo, cloneUrl owner repo⟩
        | none => none
  else none

/-! ### C7 — name derivation -/

theorem splitSeg_no_slash {l s r : List Char} (h : splitSeg l = some (s, r)) :
    '/' ∉ s ∧ s ≠ [] := by
  unfold splitSeg at h
  split at h
  · exact absurd h (by simp)
  · next hne =>
    split at h
    · cases h
      constructor
      · intro hmem
        have := List.mem_takeWhile_imp hmem
        simp at this
      · intro hnil
        rw [hnil] at hne
        exact hne rfl
    · exact absurd h (by simp)

theorem matchTreeBlob_shape {tag rest o r b pa : List Char}
    (h : matchTreeBlob tag rest = some (o, r, b, pa)) :
    '/' ∉ o ∧ '/' ∉ r ∧ pa ≠ [] := by
  unfold matchTreeBlob at h
  split at h
  · exact absurd h (by simp)
  · next owner r1 hso =>
    split at h
    · exact absurd h (by simp)
    · next repo r2 hsr =>
      split at h
      · split at h
        · exact absurd h (by simp)
        · next branch r4 hsb =>
          split at h
          · exact absurd h (by simp)
          · next hpa =>
            cases h
            refine ⟨(splitSeg_no_slash hso).1, (splitSeg_no_slash hsr).1, ?_⟩
            intro hnil
            apply hpa
            rw [hnil]
            rfl
      · exact absurd h (by simp)

theorem matchBare_shape {rest o r : List Char}
    (h : matchBare rest = some (o, r)) : '/' ∉ o ∧ '/' ∉ r := by
  unfold matchBare at h
  split at h
  · exact absurd h (by simp)
  · next owner r1 hso =>
    have hrep : '/' ∉ r1.takeWhile (fun c => c != '/') := by
      intro hmem
      have := List.mem_takeWhile_imp hmem
      simp at this
    split at h
    · exact absurd h (by simp)
    · next hne =>
      split at h
      · cases h
        exact ⟨(splitSeg_no_slash hso).1, hrep⟩
      · cases h
        exact ⟨(splitSeg_no_slash hso).1, hrep⟩
      · exact absurd h (by simp)

theorem splitOnSlash_no_slash (p : List Char) :
    ∀ seg ∈ splitOnSlash p, '/' ∉ seg := by
  induction p with
  | nil =>
      intro seg hseg
      simp only [splitOnSlash, List.mem_singleton] at hseg
      subst hseg
      exact List.not_mem_nil '/'
  | cons c rest ih =>
      intro seg hseg
      rw [splitOnSlash] at hseg
      by_cases hc : c = '/'
      · rw [if_pos hc] at hseg
        rcases List.mem_cons.mp hseg with h1 | h1
        · subst h1
          exact List.not_mem_nil '/'
        · exact ih seg h1
      · rw [if_neg hc] at hseg
        cases hgs : splitOnSlash rest with
        | nil =>
            rw [hgs] at hseg
            simp only [List.mem_singleton] at hseg
            subst hseg
            intro hmem
            rcases List.mem_singleton.mp hmem with h2
            exact hc h2.symm
        | cons g gs =>
            rw [hgs] at hseg
            rcases List.mem_cons.mp hseg with h1 | h1
            · subst h1
              intro hmem
              rcases List.mem_cons.mp hmem with h2 | h2
              · exact hc h2.symm
              · exact ih g (by rw [hgs]; exact List.mem_cons_self g gs) h2
            · exact ih seg (by rw [hgs]; exact List.mem_cons_of_mem g h1)

theorem getLastD_no_slash {l : List (List Char)}
    (h : ∀ seg ∈ l, '/' ∉ seg) : '/' ∉ l.getLastD [] := by
  induction l with
  | nil => simp [List.getLastD]
  | cons a rest ih =>
      cases rest with
      | nil => exact h a (by simp)
      | cons b rest2 =>
          exact ih fun seg hseg => h seg (by simp [hseg])

theorem pathName_no_slash (p : List Char) : '/' ∉ pathName p := by
  unfold pathName
  refine getLastD_no_slash ?_
  intro seg hseg
  exact splitOnSlash_no_slash p seg (List.mem_of_mem_filter hseg)

/-- C7: for every reference string of one of the three recognised shapes,
the derived `server_name` is `owner-repo-lastPathSegment(subpath)` when a
subpath is present and `owner-repo` otherwise, and it contains no path
separator.  (`parse_url` is a Lean function, hence pure and deterministic by
construction.) -/
theorem parse_url_name_derivation (url : List Char) (info : UrlInfo)
    (h : parse_url url = some info) :
    (info.path = [] → info.server_name = info.owner ++ "-".data ++ info.repo)
      ∧ (info.path ≠ [] → info.server_name =
          info.owner ++ "-".data ++ info.repo ++ "-".data ++ pathName info.path)
      ∧ '/' ∉ info.server_name := by
  unfold parse_url at h
  split at h
  · split at h
    · next o r b pa htree =>
      cases h
      obtain ⟨ho, hr, hpa⟩ := matchTreeBlob_shape htree
      refine ⟨fun hc => absurd hc hpa, fun _ => rfl, ?_⟩
      simp only [List.mem_append]
      rintro ((((h1 | h1) | h1) | h1) | h1)
      · exact ho h1
      · simp at h1
      · exact hr h1
      · simp at h1
      · exact pathName_no_slash pa h1
    · split at h
      · next o r b pa hblob =>
        cases h
        obtain ⟨ho, hr, hpa⟩ := matchTreeBlob_shape hblob
        refine ⟨fun hc => absurd hc hpa, fun _ => rfl, ?_⟩
        simp only [List.mem_append]
        rintro ((((h1 | h1) | h1) | h1) | h1)
        · exact ho h1
        · simp at h1
        · exact hr h1
        · simp at h1
        · exact pathName_no_slash pa h1
      · split at h
        · next o r hbare =>
          cases h
          obtain ⟨ho, hr⟩ := matchBare_shape hbare
          refine ⟨fun _ => rfl, fun hc => absurd rfl hc, ?_⟩
          simp only [List.mem_append]
          rintro ((h1 | h1) | h1)
          · exact ho h1
          · simp at h1
          · exact hr h1
        · exact absurd h (by simp)
  · exact absurd h (by simp)

/-- C7 witness: a `tree` reference with a multi-level subpath keeps only the
final segment, and a bare reference uses owner-repo. -/
theorem parse_url_name_derivation_witness :
    parse_url "https://github.com/o/r/tree/main/a/b/c".data
        = some ⟨"o".data, "r".data, "main".data, "a/b/c".data,
                "o-r-c".data, "https://github.com/o/r.git".data⟩
      ∧ ("a/b/c".data ≠ ([] : List Char) →
          "o-r-c".data = "o".data ++ "-".data ++ "r".data ++ "-".data
            ++ pathName "a/b/c".data)
      ∧ '/' ∉ "o-r-c".data := by
  have h : parse_url "https://github.com/o/r/tree/main/a/b/c".data
      = some ⟨"o".data, "r".data, "main".data, "a/b/c".data,
              "o-r-c".data, "https://github.com/o/r.git".data⟩ := by decide
  refine ⟨h, ?_, ?_⟩
  · exact (parse_url_name_derivation _ _ h).2.1
  · exact (parse_url_name_derivation _ _ h).2.2

/-! ## `DockerService` build executor

A validated plan (the dict `parse_plan` returns, as consumed by
`build_from_plan`): the four required fields, the six defaulted fields, and
the optional `transport_type` read via `plan.get("transport_type", "sse")`.
`ports`, `environment_variables` and `volumes` keep Python's dict insertion
order. -/

/-- The validated execution plan, with the field types `build_from_plan`
relies on. -/
structure DockerPlan where
  dockerfile_content : String
  image_name : String
  container_name : String
  ports : List (String × String)
  environment_variables : List (String × String)
  required_secrets : List String
  volumes : List (String × String)
  startup_command : Option String
  transport_type : Option String
  has_existing_dockerfile : Bool
deriving DecidableEq

/-- Model of Python `str.lower()` (ASCII). -/
def pyLower (s : String) : String :=
  ⟨s.data.map Char.toLower⟩

/-- Line 66 of docker_service.py:
`is_stdio = plan.get("transport_type", "sse").lower() == "stdio"`. -/
def is_stdio_of (plan : DockerPlan) : Bool :=
  pyLower (plan.transport_type.getD "sse") == "stdio"

/-- Model of Python `str.split()` (no arguments): split on whitespace runs,
discarding empty fields. -/
def splitWsAux : List Char → List Char → List String
  | [], cur => if cur.isEmpty then [] else [⟨cur.reverse⟩]
  | c :: rest, cur =>
      if isPyWs c then
        if cur.isEmpty then splitWsAux rest []
        else ⟨cur.reverse⟩ :: splitWsAux rest []
      else splitWsAux rest (c :: cur)

/-- Python `s.split()`. -/
def pySplit (s : String) : List String :=
  splitWsAux s.data []

/-- The environment flag emitted for one required secret:
`f"{secret}=${{{secret}}}"` — a shell reference to the like-named variable,
never a literal value. -/
def secretFlag (s : String) : String :=
  s ++ "=$\x7b" ++ s ++ "\x7d"

/-- The operator placeholder listed in the instructions for one secret. -/
def secretPlaceholder (s : String) : String :=
  "export " ++ s ++ "=your_actual_" ++ pyLower s ++ "_here"

/-- The ports loop of `_generate_run_instructions`:
`run_cmd_parts.extend(["-p", f"{host_port}:{container_port}"])` per entry. -/
def portFlagsAux : List (String × String) → List String → List String
  | [], acc => acc
  | (cport, hport) :: rest, acc =>
      portFlagsAux rest (acc ++ ["-p", hport ++ ":" ++ cport])

/-- The environment-variables loop: `["-e", f"{key}={value}"]` per entry. -/
def envFlagsAux : List (String × String) → List String → List String
  | [], acc => acc
  | (k, v) :: rest, acc => envFlagsAux rest (acc ++ ["-e", k ++ "=" ++ v])

/-- The required-secrets loop: `["-e", f"{secret}=${{{secret}}}"]` per
entry. -/
def secretFlagsAux : List String → List String → List String
  | [], acc => acc
  | sc :: rest, acc => secretFlagsAux rest (acc ++ ["-e", secretFlag sc])

/-- The volumes loop: `["-v", f"{host_path}:{container_path}"]` per entry. -/
def volFlagsAux : List (String × String) → List String → List String
  | [], acc => acc
  | (hp, cp) :: rest, acc => volFlagsAux rest (acc ++ ["-v", hp ++ ":" ++ cp])

/-- The argv list `_generate_run_instructions` accumulates: transport base
flags, then (network only) the port-publish flags, then environment, secret
and volume flags, the image name, and the whitespace-split
`startup_command` tokens when that field is set and truthy. -/
def run_cmd_parts (plan : DockerPlan) (is_stdio : Bool) : List String :=
  let base :=
    if is_stdio then
      ["docker", "run", "-i", "--rm", "--name", plan.container_name]
    else
      portFlagsAux plan.ports
        ["docker", "run", "-d", "--name", plan.container_name]
  let p2 := envFlagsAux plan.environment_variables base
  let p3 := secretFlagsAux plan.required_secrets p2
  let p4 := volFlagsAux plan.volumes p3 ++ [plan.image_name]
  match plan.startup_command with
  | some cmd => if cmd = "" then p4 else p4 ++ pySplit cmd
  | none => p4

/-- The `run_command` string: `" ".join(run_cmd_parts)`. -/
def run_command_of (plan : DockerPlan) (is_stdio : Bool) : String :=
  String.intercalate " " (run_cmd_parts plan is_stdio)

/-- The placeholder block of the instructions text. -/
def placeholdersBlock (ps : List String) : String :=
  if ps.isEmpty then "   No secrets required" else String.intercalate "\n" ps

/-- The human-readable instructions `_generate_run_instructions` returns
alongside the run command. -/
def run_instructions_of (plan : DockerPlan) (is_stdio : Bool) : String :=
  let block := placeholdersBlock (plan.required_secrets.map secretPlaceholder)
  let cmd := run_command_of plan is_stdio
  if is_stdio then
    "\nTO RUN THE CONTAINER (STDIO Transport):\n\n1. Set required environment variables (if any):\n"
      ++ block
      ++ "\n\n2. Run the container interactively:\n   "
      ++ cmd
      ++ "\n   \n   Note: This server uses STDIO transport (stdin/stdout communication).\n   - The container runs interactively (-i flag)\n   - It will be automatically removed when it exits (--rm flag)\n   - No port mapping needed as it uses standard input/output\n\n3. Use your MCP client to connect via subprocess/stdio transport\n"
  else
    "\nTO RUN THE CONTAINER (SSE/HTTP Transport):\n\n1. Set required environment variables (if any):\n"
      ++ block
      ++ "\n\n2. Run the container:\n   "
      ++ cmd
      ++ "\n\n3. Use your MCP client to connect via SSE/HTTP transport\n"

/-! ### Flat (map-flatten) forms of the four flag sections -/

/-- One `-p host:container` pair per ports entry, in mapping order. -/
def portFlagList (ports : List (String × String)) : List String :=
  (ports.map (fun pc => ["-p", pc.2 ++ ":" ++ pc.1])).flatten

/-- One `-e KEY=VALUE` pair per environment entry. -/
def envFlagList (env : List (String × String)) : List String :=
  (env.map (fun kv => ["-e", kv.1 ++ "=" ++ kv.2])).flatten

/-- One `-e NAME=${NAME}` pair per required secret. -/
def secretFlagList (secrets : List String) : List String :=
  (secrets.map (fun sc => ["-e", secretFlag sc])).flatten

/-- One `-v host:container` pair per volumes entry. -/
def volFlagList (vols : List (String × String)) : List String :=
  (vols.map (fun vv => ["-v", vv.1 ++ ":" ++ vv.2])).flatten

/-- The startup tokens appended after the image name (empty when the field
is unset or falsy). -/
def startupTokens (plan : DockerPlan) : List String :=
  match plan.startup_command with
  | some cmd => if cmd = "" then [] else pySplit cmd
  | none => []

theorem portFlagsAux_eq (ports : List (String × String)) (acc : List String) :
    portFlagsAux ports acc = acc ++ portFlagList ports := by
  induction ports generalizing acc with
  | nil => simp [portFlagsAux, portFlagList]
  | cons pc rest ih =>
      obtain ⟨cp, hp⟩ := pc
      rw [portFlagsAux, ih]
      simp [portFlagList]

theorem envFlagsAux_eq (env : List (String × String)) (acc : List String) :
    envFlagsAux env acc = acc ++ envFlagList env := by
  induction env generalizing acc with
  | nil => simp [envFlagsAux, envFlagList]
  | cons kv rest ih =>
      obtain ⟨k, v⟩ := kv
      rw [envFlagsAux, ih]
      simp [envFlagList]

theorem secretFlagsAux_eq (secrets : List String) (acc : List String) :
    secretFlagsAux secrets acc = acc ++ secretFlagList secrets := by
  induction secrets generalizing acc with
  | nil => simp [secretFlagsAux, secretFlagList]
  | cons sc rest ih =>
      rw [secretFlagsAux, ih]
      simp [secretFlagList]

theorem volFlagsAux_eq (vols : List (String × String)) (acc : List String) :
    volFlagsAux vols acc = acc ++ volFlagList vols := by
  induction vols generalizing acc with
  | nil => simp [volFlagsAux, volFlagList]
  | cons vv rest ih =>
      obtain ⟨hp, cp⟩ := vv
      rw [volFlagsAux, ih]
      simp [volFlagList]

/-- The accumulated argv equals base flags, port flags (network only),
environment flags, secret flags, volume flags, image name, startup tokens —
in that order. -/
theorem run_cmd_parts_eq (plan : DockerPlan) (b : Bool) :
    run_cmd_parts plan b =
      (if b then ["docker", "run", "-i", "--rm", "--name", plan.container_name]
       else ["docker", "run", "-d", "--name", plan.container_name]
         ++ portFlagList plan.ports)
      ++ envFlagList plan.environment_variables
      ++ secretFlagList plan.required_secrets
      ++ volFlagList plan.volumes
      ++ [plan.image_name]
      ++ startupTokens plan := by
  unfold run_cmd_parts startupTokens
  cases b with
  | true =>
      simp only [if_true]
      rw [envFlagsAux_eq, secretFlagsAux_eq, volFlagsAux_eq]
      cases plan.startup_command with
      | none => simp
      | some cmd =>
          by_cases hc : cmd = "" <;> simp [hc]
  | false =>
      simp only [if_false]
      rw [portFlagsAux_eq, envFlagsAux_eq, secretFlagsAux_eq, volFlagsAux_eq]
      cases plan.startup_command with
      | none => simp
      | some cmd =>
          by_cases hc : cmd = "" <;> simp [hc]

/-! ### String-shape facts about the emitted flags -/

theorem char_mem_secretFlag (s : String) : '=' ∈ (secretFlag s).data := by
  unfold secretFlag
  simp [String.data_append]

theorem secretFlag_ne_of_no_eq {t : String} (ht : '=' ∉ t.data) (s : String) :
    secretFlag s ≠ t := fun h => ht (h ▸ char_mem_secretFlag s)

theorem colon_append_ne {t : String} (ht : ':' ∉ t.data) (a b : String) :
    a ++ ":" ++ b ≠ t := by
  intro h
  apply ht
  rw [← h]
  simp [String.data_append]

theorem eq_append_ne {t : String} (ht : '=' ∉ t.data) (a b : String) :
    a ++ "=" ++ b ≠ t := by
  intro h
  apply ht
  rw [← h]
  simp [String.data_append]

theorem secretFlag_inj {s t : String} (h : secretFlag s = secretFlag t) :
    s = t := by
  have hd := congrArg String.data h
  simp only [secretFlag, String.data_append] at hd
  have hlen : s.data.length = t.data.length := by
    have := congrArg List.length hd
    simp only [List.length_append] at this
    omega
  rw [List.append_assoc, List.append_assoc, List.append_assoc,
    List.append_assoc] at hd
  exact String.ext (List.append_inj hd hlen).1

/-! ### Count lemmas for the synthesized argv -/

theorem count_pair_zero {x a b : String} (ha : a ≠ x) (hb : b ≠ x) :
    List.count x [a, b] = 0 := by
  simp [List.count_cons, ha, hb]

theorem count_pair_self {x b : String} (hb : b ≠ x) :
    List.count x [x, b] = 1 := by
  simp [List.count_cons, hb]

theorem count_singleton_zero {x a : String} (ha : a ≠ x) :
    List.count x [a] = 0 := by
  simp [List.count_singleton, ha]

theorem count_flatten_pairs_zero {α : Type} {f : α → List String} {x : String}
    {l : List α} (h : ∀ a ∈ l, List.count x (f a) = 0) :
    List.count x ((l.map f).flatten) = 0 := by
  induction l with
  | nil => rfl
  | cons a rest ih =>
      simp only [List.map_cons, List.flatten_cons]
      rw [List.count_append, h a (by simp), ih fun a ha => h a (by simp [ha])]

theorem count_p_portFlagList (ports : List (String × String)) :
    List.count "-p" (portFlagList ports) = ports.length := by
  induction ports with
  | nil => rfl
  | cons pc rest ih =>
      obtain ⟨cp, hp⟩ := pc
      simp only [portFlagList, List.map_cons, List.flatten_cons]
      rw [List.count_append]
      have h1 : List.count "-p" ["-p", hp ++ ":" ++ cp] = 1 :=
        count_pair_self (colon_append_ne (by decide) hp cp)
      rw [h1]
      simp only [portFlagList] at ih
      rw [ih, List.length_cons]
      omega

theorem count_p_envFlagList (env : List (String × String)) :
    List.count "-p" (envFlagList env) = 0 :=
  count_flatten_pairs_zero fun kv _ =>
    count_pair_zero (by decide) (eq_append_ne (by decide) kv.1 kv.2)

theorem count_p_secretFlagList (secrets : List String) :
    List.count "-p" (secretFlagList secrets) = 0 :=
  count_flatten_pairs_zero fun sc _ =>
    count_pair_zero (by decide) (secretFlag_ne_of_no_eq (by decide) sc)

theorem count_p_volFlagList (vols : List (String × String)) :
    List.count "-p" (volFlagList vols) = 0 :=
  count_flatten_pairs_zero fun vv _ =>
    count_pair_zero (by decide) (colon_append_ne (by decide) vv.1 vv.2)

theorem count_stdio_base_zero {x cn : String}
    (hx : x ∉ (["docker", "run", "-i", "--rm", "--name"] : List String))
    (hcn : cn ≠ x) :
    List.count x ["docker", "run", "-i", "--rm", "--name", cn] = 0 := by
  rw [List.count_eq_zero]
  intro hmem
  simp only [List.mem_cons, List.not_mem_nil, or_false] at hmem
  rcases hmem with h | h | h | h | h | h
  · exact hx (by simp [h])
  · exact hx (by simp [h])
  · exact hx (by simp [h])
  · exact hx (by simp [h])
  · exact hx (by simp [h])
  · exact hcn h.symm

theorem count_sse_base_zero {x cn : String}
    (hx : x ∉ (["docker", "run", "-d", "--name"] : List String))
    (hcn : cn ≠ x) :
    List.count x ["docker", "run", "-d", "--name", cn] = 0 := by
  rw [List.count_eq_zero]
  intro hmem
  simp only [List.mem_cons, List.not_mem_nil, or_false] at hmem
  rcases hmem with h | h | h | h | h
  · exact hx (by simp [h])
  · exact hx (by simp [h])
  · exact hx (by simp [h])
  · exact hx (by simp [h])
  · exact hcn h.symm

/-! ### C2 — port-publish flags by transport -/

/-- C2: with `transportType` case-insensitively `"stdio"` the synthesized
argv contains no `-p` flag even when `ports` is non-empty; with
`transportType` case-insensitively `"sse"` it is the detached base followed
by exactly one `-p hostPort:containerPort` per ports entry in mapping
order, then the transport-independent tail, so the number of `-p` tokens
equals the number of ports entries.  The hypotheses rule out the unrelated
fields spelling the literal string `"-p"` themselves. -/
theorem run_command_port_publish (plan : DockerPlan)
    (hcn : plan.container_name ≠ "-p")
    (him : plan.image_name ≠ "-p")
    (hst : "-p" ∉ startupTokens plan) :
    (∀ ts, plan.transport_type = some ts → pyLower ts = "stdio" →
        List.count "-p" (run_cmd_parts plan (is_stdio_of plan)) = 0)
      ∧ (∀ ts, plan.transport_type = some ts → pyLower ts = "sse" →
          run_cmd_parts plan (is_stdio_of plan)
            = ["docker", "run", "-d", "--name", plan.container_name]
              ++ portFlagList plan.ports
              ++ envFlagList plan.environment_variables
              ++ secretFlagList plan.required_secrets
              ++ volFlagList plan.volumes
              ++ [plan.image_name]
              ++ startupTokens plan
          ∧ List.count "-p" (run_cmd_parts plan (is_stdio_of plan))
              = plan.ports.length) := by
  constructor
  · intro ts hts hlow
    have hb : is_stdio_of plan = true := by
      unfold is_stdio_of
      rw [hts]
      simp [hlow]
    rw [hb, run_cmd_parts_eq]
    simp only [if_true]
    repeat rw [List.count_append]
    rw [count_stdio_base_zero (by decide) hcn,
      count_p_envFlagList, count_p_secretFlagList, count_p_volFlagList,
      count_singleton_zero him, List.count_eq_zero.mpr hst]
  · intro ts hts hlow
    have hb : is_stdio_of plan = false := by
      unfold is_stdio_of
      rw [hts]
      simp [hlow]
    rw [hb, run_cmd_parts_eq]
    simp only [Bool.false_eq_true, if_false]
    refine ⟨trivial, ?_⟩
    repeat rw [List.count_append]
    rw [count_sse_base_zero (by decide) hcn, count_p_portFlagList,
      count_p_envFlagList, count_p_secretFlagList, count_p_volFlagList,
      count_singleton_zero him, List.count_eq_zero.mpr hst]
    omega

/-- C2 witness: a stdio plan with non-empty ports emits no `-p`; an sse plan
with two ports emits exactly two, in order, formatted `host:container`. -/
theorem run_command_port_publish_witness :
    ("c" : String) ≠ "-p" ∧ ("i" : String) ≠ "-p"
      ∧ List.count "-p" (run_cmd_parts
          ⟨"FROM x", "i", "c", [("8000", "9000")], [], [], [], none,
            some "STDIO", false⟩
          (is_stdio_of ⟨"FROM x", "i", "c", [("8000", "9000")], [], [], [],
            none, some "STDIO", false⟩)) = 0
      ∧ run_cmd_parts
          ⟨"FROM x", "i", "c", [("8000", "9000"), ("7000", "7100")], [], [],
            [], none, some "sse", false⟩
          (is_stdio_of ⟨"FROM x", "i", "c",
            [("8000", "9000"), ("7000", "7100")], [], [], [], none,
            some "sse", false⟩)
        = ["docker", "run", "-d", "--name", "c", "-p", "9000:8000",
           "-p", "7100:7000", "i"] := by
  refine ⟨by decide, by decide, ?_, ?_⟩
  · exact (run_command_port_publish _ (by decide) (by decide)
      (by decide)).1 "STDIO" rfl (by decide)
  · have h := (run_command_port_publish
      ⟨"FROM x", "i", "c", [("8000", "9000"), ("7000", "7100")], [], [], [],
        none, some "sse", false⟩
      (by decide) (by decide) (by decide)).2 "sse" rfl (by decide)
    rw [h.1]
    decide

/-! ### C3 — secret environment flags -/

theorem count_x_envFlagList_zero {x : String} {env : List (String × String)}
    (hne : "-e" ≠ x) (hv : ∀ kv ∈ env, kv.1 ++ "=" ++ kv.2 ≠ x) :
    List.count x (envFlagList env) = 0 := by
  unfold envFlagList
  exact count_flatten_pairs_zero fun kv hkv => count_pair_zero hne (hv kv hkv)

theorem count_x_portFlagList_zero {x : String} {ports : List (String × String)}
    (hne : "-p" ≠ x) (hv : ∀ pc ∈ ports, pc.2 ++ ":" ++ pc.1 ≠ x) :
    List.count x (portFlagList ports) = 0 := by
  unfold portFlagList
  exact count_flatten_pairs_zero fun pc hpc => count_pair_zero hne (hv pc hpc)

theorem count_x_volFlagList_zero {x : String} {vols : List (String × String)}
    (hne : "-v" ≠ x) (hv : ∀ vv ∈ vols, vv.1 ++ ":" ++ vv.2 ≠ x) :
    List.count x (volFlagList vols) = 0 := by
  unfold volFlagList
  exact count_flatten_pairs_zero fun vv hvv => count_pair_zero hne (hv vv hvv)

theorem count_pair_self2 {x a : String} (ha : a ≠ x) :
    List.count x [a, x] = 1 := by
  simp [List.count_cons, ha]

theorem count_flag_secretFlagList_not_mem {s : String} {secrets : List String}
    (hs : s ∉ secrets) :
    List.count (secretFlag s) (secretFlagList secrets) = 0 := by
  unfold secretFlagList
  refine count_flatten_pairs_zero fun sc hsc => ?_
  refine count_pair_zero (Ne.symm (secretFlag_ne_of_no_eq (by decide) s)) ?_
  intro h
  exact hs (secretFlag_inj h ▸ hsc)

theorem count_flag_secretFlagList_mem {s : String} {secrets : List String}
    (hs : s ∈ secrets) (hnd : secrets.Nodup) :
    List.count (secretFlag s) (secretFlagList secrets) = 1 := by
  induction secrets with
  | nil => simp at hs
  | cons a rest ih =>
      rw [List.nodup_cons] at hnd
      have hexp : secretFlagList (a :: rest)
          = ["-e", secretFlag a] ++ secretFlagList rest := by
        simp [secretFlagList]
      rw [hexp, List.count_append]
      rcases List.mem_cons.mp hs with heq | hmem
      · subst heq
        rw [count_pair_self2 (Ne.symm (secretFlag_ne_of_no_eq (by decide) s)),
          count_flag_secretFlagList_not_mem hnd.1]
      · have ha : secretFlag a ≠ secretFlag s := by
          intro h
          exact hnd.1 (secretFlag_inj h ▸ hmem)
        rw [count_pair_zero (Ne.symm (secretFlag_ne_of_no_eq (by decide) s)) ha,
          ih hmem hnd.2]

theorem secretFlagList_split {s : String} {secrets : List String}
    (hs : s ∈ secrets) :
    ∃ l1 l2, secretFlagList secrets = l1 ++ ["-e", secretFlag s] ++ l2 := by
  induction secrets with
  | nil => simp at hs
  | cons a rest ih =>
      rcases List.mem_cons.mp hs with heq | hmem
      · subst heq
        exact ⟨[], secretFlagList rest, by simp [secretFlagList]⟩
      · obtain ⟨l1, l2, hl⟩ := ih hmem
        refine ⟨["-e", secretFlag a] ++ l1, l2, ?_⟩
        have hexp : secretFlagList (a :: rest)
            = ["-e", secretFlag a] ++ secretFlagList rest := by
          simp [secretFlagList]
        rw [hexp, hl]
        simp [List.append_assoc]

/-- C3: for every required secret `s`, the synthesized argv contains
(exactly once, under the stated non-spoofing hypotheses) the environment
flag pair `-e s=${s}` — a shell-expanded reference to the environment
variable named `s`.  The synthesizer is a function of the plan alone, and a
plan carries secret names only, never secret values, so no literal secret
value can appear in the persisted command. -/
theorem run_command_secret_reference (plan : DockerPlan) (b : Bool)
    (s : String)
    (hs : s ∈ plan.required_secrets)
    (hnd : plan.required_secrets.Nodup)
    (henv : ∀ kv ∈ plan.environment_variables,
      kv.1 ++ "=" ++ kv.2 ≠ secretFlag s)
    (hpt : ∀ pc ∈ plan.ports, pc.2 ++ ":" ++ pc.1 ≠ secretFlag s)
    (hvl : ∀ vv ∈ plan.volumes, vv.1 ++ ":" ++ vv.2 ≠ secretFlag s)
    (hcn : plan.container_name ≠ secretFlag s)
    (him : plan.image_name ≠ secretFlag s)
    (hst : secretFlag s ∉ startupTokens plan) :
    (∃ l1 l2, run_cmd_parts plan b = l1 ++ ["-e", secretFlag s] ++ l2)
      ∧ List.count (secretFlag s) (run_cmd_parts plan b) = 1 := by
  obtain ⟨l1, l2, hl⟩ := secretFlagList_split hs
  constructor
  · refine ⟨(if b then
        ["docker", "run", "-i", "--rm", "--name", plan.container_name]
      else ["docker", "run", "-d", "--name", plan.container_name]
        ++ portFlagList plan.ports)
      ++ envFlagList plan.environment_variables ++ l1,
      l2 ++ volFlagList plan.volumes ++ [plan.image_name]
        ++ startupTokens plan, ?_⟩
    rw [run_cmd_parts_eq, hl]
    simp [List.append_assoc]
  · rw [run_cmd_parts_eq]
    have hlit : ∀ t : String, '=' ∉ t.data → secretFlag s ≠ t :=
      fun t ht => secretFlag_ne_of_no_eq ht s
    cases b with
    | true =>
        simp only [if_true]
        repeat rw [List.count_append]
        rw [count_stdio_base_zero ?hx hcn,
          count_x_envFlagList_zero (Ne.symm (hlit "-e" (by decide))) henv,
          count_flag_secretFlagList_mem hs hnd,
          count_x_volFlagList_zero (Ne.symm (hlit "-v" (by decide))) hvl,
          count_singleton_zero him, List.count_eq_zero.mpr hst]
        case hx =>
          intro h
          simp only [List.mem_cons, List.not_mem_nil, or_false] at h
          rcases h with h | h | h | h | h <;> exact hlit _ (by decide) h
    | false =>
        simp only [Bool.false_eq_true, if_false]
        repeat rw [List.count_append]
        rw [count_sse_base_zero ?hx2 hcn,
          count_x_portFlagList_zero (Ne.symm (hlit "-p" (by decide))) hpt,
          count_x_envFlagList_zero (Ne.symm (hlit "-e" (by decide))) henv,
          count_flag_secretFlagList_mem hs hnd,
          count_x_volFlagList_zero (Ne.symm (hlit "-v" (by decide))) hvl,
          count_singleton_zero him, List.count_eq_zero.mpr hst]
        case hx2 =>
          intro h
          simp only [List.mem_cons, List.not_mem_nil, or_false] at h
          rcases h with h | h | h | h <;> exact hlit _ (by decide) h

/-- C3 witness: a plan with secrets `API_KEY` and `TOKEN`, environment
variables, ports, volumes and a startup command: the command carries
`-e API_KEY=${API_KEY}` exactly once. -/
theorem run_command_secret_reference_witness :
    ("API_KEY" : String) ∈ ["API_KEY", "TOKEN"]
      ∧ (["API_KEY", "TOKEN"] : List String).Nodup
      ∧ ((∃ l1 l2, run_cmd_parts
            ⟨"FROM x", "img", "cont", [("8000", "8000")], [("FOO", "bar")],
              ["API_KEY", "TOKEN"], [("/h", "/c")], some "python app.py",
              some "sse", false⟩ false
            = l1 ++ ["-e", secretFlag "API_KEY"] ++ l2)
          ∧ List.count (secretFlag "API_KEY") (run_cmd_parts
              ⟨"FROM x", "img", "cont", [("8000", "8000")], [("FOO", "bar")],
                ["API_KEY", "TOKEN"], [("/h", "/c")], some "python app.py",
                some "sse", false⟩ false) = 1) := by
  refine ⟨by decide, by decide, ?_⟩
  exact run_command_secret_reference _ false "API_KEY" (by decide) (by decide)
    (by decide) (by decide) (by decide) (by decide) (by decide) (by decide)

/-! ## `build_from_plan` with its filesystem and tool effects

The filesystem is an association list from paths to file contents; writing
overwrites in place (or creates).  `CommandRunner.run` is a deterministic
oracle from argv to `{stdout, stderr, returncode}`; `_remove_old_image`
only queries and best-effort-removes images through the oracle, so it has
no filesystem effect. -/

/-- Result of one external command. -/
structure CmdResult where
  stdout : String
  stderr : String
  returncode : Int
deriving DecidableEq

/-- A file on disk: plain text (the Dockerfile) or a dumped JSON object
(the metadata file). -/
inductive FileData where
  | text (s : String)
  | jsonObj (m : List (String × Json))
deriving DecidableEq

/-- Filesystem lookup. -/
def lookupFS : List (String × FileData) → String → Option FileData
  | [], _ => none
  | (p, d) :: rest, q => if p = q then some d else lookupFS rest q

/-- Filesystem write: overwrite in place, create if absent. -/
def writeFS : List (String × FileData) → String → FileData →
    List (String × FileData)
  | [], q, d => [(q, d)]
  | (p, d0) :: rest, q, d =>
      if p = q then (p, d) :: rest else (p, d0) :: writeFS rest q d

/-- Python `str.strip()` on `String`. -/
def pyStripS (s : String) : String :=
  ⟨pyStrip s.data⟩

/-- The image build argv. -/
def buildCmdOf (plan : DockerPlan) (repo_path : String) : List String :=
  ["docker", "build", "-t", plan.image_name, repo_path]

/-- The `date -Iseconds` timestamp argv.  The source runs it with the
default `check=True`, so a non-zero exit raises `CalledProcessError`. -/
def dateCmd : List String :=
  ["date", "-Iseconds"]

/-- `plan.get("transport_type", "sse")`. -/
def transportOf (plan : DockerPlan) : String :=
  plan.transport_type.getD "sse"

/-- Step 1 of `build_from_plan`: write the generated Dockerfile unless the
plan says an existing one is in place. -/
def dockerfileStep (plan : DockerPlan) (repo_path : String)
    (fs : List (String × FileData)) : List (String × FileData) :=
  if plan.has_existing_dockerfile then fs
  else writeFS fs (repo_path ++ "/Dockerfile") (.text plan.dockerfile_content)

/-- `metadata_path = (server_dir or repo_path) / "metadata.json"`. -/
def metadataPathOf (repo_path : String) (server_dir : Option String) : String :=
  server_dir.getD repo_path ++ "/metadata.json"

/-- The metadata snapshot of docker_service.py lines 68-81 (persisted with
`status = "image_built"` before the build is invoked).  The `created_at`
field holds the trimmed stdout of the `check=True` date call;
`build_from_plan` only reaches this snapshot when that call exited zero
(otherwise it raised first). -/
def buildMetadata (runner : List String → CmdResult) (plan : DockerPlan)
    (repo_path server_name : String) : List (String × Json) :=
  [("server_name", .jstr server_name),
   ("repository_path", .jstr repo_path),
   ("image_name", .jstr plan.image_name),
   ("container_name", .jstr plan.container_name),
   ("ports", .jmap (plan.ports.map (fun pc => (pc.1, Json.jstr pc.2)))),
   ("environment_variables",
     .jmap (plan.environment_variables.map (fun kv => (kv.1, Json.jstr kv.2)))),
   ("required_secrets", .jarr (plan.required_secrets.map Json.jstr)),
   ("volumes", .jmap (plan.volumes.map (fun vv => (vv.1, Json.jstr vv.2)))),
   ("startup_command",
     match plan.startup_command with | some c => .jstr c | none => .jnull),
   ("transport_type", .jstr (transportOf plan)),
   ("created_at", .jstr (pyStripS (runner dateCmd).stdout)),
   ("status", .jstr "image_built")]

/-- The metadata after a successful build: status `ready_to_run` plus the
cached run command and instructions. -/
def readyMetadata (runner : List String → CmdResult) (plan : DockerPlan)
    (repo_path server_name : String) : List (String × Json) :=
  setKeyA (setKeyA (setKeyA (buildMetadata runner plan repo_path server_name)
      "status" (.jstr "ready_to_run"))
    "run_command" (.jstr (run_command_of plan (is_stdio_of plan))))
    "run_instructions" (.jstr (run_instructions_of plan (is_stdio_of plan)))

/-- The `docker images --format table ...` query issued on success. -/
def imageInfoCmd (image_name : String) : List String :=
  ["docker", "images", "--format",
   "table \x7b\x7b.Repository\x7d\x7d:\x7b\x7b.Tag\x7d\x7d\t\x7b\x7b.Size\x7d\x7d\t\x7b\x7b.CreatedAt\x7d\x7d",
   image_name]

/-- The success dict `build_from_plan` returns. -/
structure BuildOk where
  image_name : String
  image_info : String
  build_output : String
  run_command : String
  run_instructions : String
  transport_type : String
  ports : List (String × String)
  environment_variables : List String
  required_secrets : List String
  metadata_path : String
deriving DecidableEq

/-- Outcome of `build_from_plan`: success; the reported non-fatal
`Docker build failed` dict carrying the build's stdout/stderr/exit code; or
`pyFailure`, the `except Exception` return site (the
`"Docker execution failed: ..."` dict), reached when a `check=True` runner
call — the `date` timestamp at line 79 or the `docker images` query at
line 113 — exits non-zero and raises. -/
inductive BuildResult where
  | ok (r : BuildOk)
  | buildFailed (stdout stderr : String) (returncode : Int)
  | pyFailure
deriving DecidableEq

/-- Model of `DockerService.build_from_plan`: write the Dockerfile (step 1);
take the timestamp with `check=True` — a non-zero exit raises before any
metadata is written, landing in the `except Exception` handler; persist the
`image_built` metadata snapshot (step 3); best-effort-remove the old image
(oracle only); run the build with `check=False`.  On non-zero build exit
rewrite the metadata with `status = "build_failed"` and report.  On success
rewrite with `status = "ready_to_run"` plus the synthesized run
command/instructions, then query the image listing with `check=True` — a
non-zero exit there raises after that write, again landing in the generic
handler — and return the success dict. -/
def build_from_plan (runner : List String → CmdResult) (plan : DockerPlan)
    (repo_path server_name : String) (server_dir : Option String)
    (fs : List (String × FileData)) :
    BuildResult × List (String × FileData) :=
  if (runner dateCmd).returncode ≠ 0 then
    (.pyFailure, dockerfileStep plan repo_path fs)
  else if (runner (buildCmdOf plan repo_path)).returncode ≠ 0 then
    (.buildFailed (runner (buildCmdOf plan repo_path)).stdout
        (runner (buildCmdOf plan repo_path)).stderr
        (runner (buildCmdOf plan repo_path)).returncode,
     writeFS
       (writeFS (dockerfileStep plan repo_path fs)
         (metadataPathOf repo_path server_dir)
         (.jsonObj (buildMetadata runner plan repo_path server_name)))
       (metadataPathOf repo_path server_dir)
       (.jsonObj (setKeyA (buildMetadata runner plan repo_path server_name)
         "status" (.jstr "build_failed"))))
  else if (runner (imageInfoCmd plan.image_name)).returncode ≠ 0 then
    (.pyFailure,
     writeFS
       (writeFS (dockerfileStep plan repo_path fs)
         (metadataPathOf repo_path server_dir)
         (.jsonObj (buildMetadata runner plan repo_path server_name)))
       (metadataPathOf repo_path server_dir)
       (.jsonObj (readyMetadata runner plan repo_path server_name)))
  else
    (.ok ⟨plan.image_name,
        pyStripS (runner (imageInfoCmd plan.image_name)).stdout,
        (runner (buildCmdOf plan repo_path)).stdout,
        run_command_of plan (is_stdio_of plan),
        run_instructions_of plan (is_stdio_of plan),
        transportOf plan,
        if is_stdio_of plan then [] else plan.ports,
        plan.environment_variables.map Prod.fst,
        plan.required_secrets,
        metadataPathOf repo_path server_dir⟩,
     writeFS
       (writeFS (dockerfileStep plan repo_path fs)
         (metadataPathOf repo_path server_dir)
         (.jsonObj (buildMetadata runner plan repo_path server_name)))
       (metadataPathOf repo_path server_dir)
       (.jsonObj (readyMetadata runner plan repo_path server_name)))

/-! ### Filesystem lemmas -/

theorem lookupFS_writeFS_self (fs : List (String × FileData)) (p : String)
    (v : FileData) : lookupFS (writeFS fs p v) p = some v := by
  induction fs with
  | nil => simp [writeFS, lookupFS]
  | cons pd rest ih =>
      obtain ⟨q, d⟩ := pd
      by_cases hq : q = p
      · simp [writeFS, lookupFS, hq]
      · simp only [writeFS, hq, if_false]
        simp only [lookupFS, hq, if_false]
        exact ih

theorem lookupFS_writeFS_ne {q p : String} (fs : List (String × FileData))
    (v : FileData) (hne : q ≠ p) :
    lookupFS (writeFS fs q v) p = lookupFS fs p := by
  induction fs with
  | nil => simp [writeFS, lookupFS, hne]
  | cons pd rest ih =>
      obtain ⟨r, d⟩ := pd
      by_cases hr : r = q
      · simp [writeFS, lookupFS, hr, hne]
      · simp only [writeFS, hr, if_false]
        by_cases hrp : r = p
        · simp [lookupFS, hrp]
        · simp only [lookupFS, hrp, if_false]
          exact ih

theorem lookupFS_writeFS_isSome {fs : List (String × FileData)} {p : String}
    (q : String) (v : FileData) (h : (lookupFS fs p).isSome) :
    (lookupFS (writeFS fs q v) p).isSome := by
  by_cases hq : q = p
  · rw [hq, lookupFS_writeFS_self]
    rfl
  · rw [lookupFS_writeFS_ne fs v hq]
    exact h

theorem lookupFS_dockerfileStep_isSome {fs : List (String × FileData)}
    {p : String} (plan : DockerPlan) (repo_path : String)
    (h : (lookupFS fs p).isSome) :
    (lookupFS (dockerfileStep plan repo_path fs) p).isSome := by
  unfold dockerfileStep
  split
  · exact h
  · exact lookupFS_writeFS_isSome _ _ h

theorem getA_setKeyA_self (m : List (String × Json)) (k : String) (v : Json) :
    getA (setKeyA m k v) k = some v := by
  induction m with
  | nil => simp [setKeyA, getA]
  | cons kv rest ih =>
      obtain ⟨k0, v0⟩ := kv
      by_cases hk : k0 = k
      · simp [setKeyA, getA, hk]
      · simp only [setKeyA, hk, if_false]
        simp only [getA, hk, if_false]
        exact ih

theorem getA_setKeyA_ne {k k2 : String} (m : List (String × Json)) (v : Json)
    (hne : k ≠ k2) : getA (setKeyA m k v) k2 = getA m k2 := by
  induction m with
  | nil => simp [setKeyA, getA, hne]
  | cons kv rest ih =>
      obtain ⟨k0, v0⟩ := kv
      by_cases hk : k0 = k
      · simp [setKeyA, getA, hk, hne]
      · simp only [setKeyA, hk, if_false]
        by_cases hk2 : k0 = k2
        · simp [getA, hk2]
        · simp only [getA, hk2, if_false]
          exact ih

/-! ### C8 — build failure is reported, recorded, and non-destructive -/

/-- C8: when the timestamp call succeeds (its `check=True` failure takes
the generic exception path instead) and the image build exits non-zero,
`build_from_plan` returns the non-fatal failure dict carrying the build's
stdout, stderr and exit code; the metadata file on disk records
`status = "build_failed"`; and no file present before the call has been
deleted (the installation directory and source tree are left intact — the
executor only ever writes). -/
theorem build_failed_reported (runner : List String → CmdResult)
    (plan : DockerPlan) (repo_path server_name : String)
    (server_dir : Option String) (fs : List (String × FileData))
    (hdate : (runner dateCmd).returncode = 0)
    (h : (runner (buildCmdOf plan repo_path)).returncode ≠ 0) :
    (build_from_plan runner plan repo_path server_name server_dir fs).1
        = .buildFailed (runner (buildCmdOf plan repo_path)).stdout
            (runner (buildCmdOf plan repo_path)).stderr
            (runner (buildCmdOf plan repo_path)).returncode
      ∧ (∃ m, lookupFS
            (build_from_plan runner plan repo_path server_name server_dir fs).2
            (metadataPathOf repo_path server_dir) = some (.jsonObj m)
          ∧ getA m "status" = some (.jstr "build_failed"))
      ∧ (∀ p, (lookupFS fs p).isSome →
          (lookupFS
            (build_from_plan runner plan repo_path server_name server_dir fs).2
            p).isSome) := by
  unfold build_from_plan
  rw [if_neg (fun hne => hne hdate), if_pos h]
  refine ⟨rfl, ?_, ?_⟩
  · refine ⟨setKeyA (buildMetadata runner plan repo_path server_name)
      "status" (.jstr "build_failed"), ?_, ?_⟩
    · exact lookupFS_writeFS_self _ _ _
    · exact getA_setKeyA_self _ _ _
  · intro p hp
    exact lookupFS_writeFS_isSome _ _
      (lookupFS_writeFS_isSome _ _
        (lookupFS_dockerfileStep_isSome plan repo_path hp))

/-- C8 witness: a concrete failing build over a one-file filesystem. -/
theorem build_failed_reported_witness :
    ((fun argv => if argv = ["docker", "build", "-t", "img", "/r"]
        then CmdResult.mk "bout" "berr" 1 else CmdResult.mk "" "" 0)
      dateCmd).returncode = 0
    ∧ ((fun argv => if argv = ["docker", "build", "-t", "img", "/r"]
        then CmdResult.mk "bout" "berr" 1 else CmdResult.mk "" "" 0)
      (buildCmdOf ⟨"FROM x", "img", "c", [("8000", "8000")], [], [], [],
        none, some "sse", false⟩ "/r")).returncode ≠ 0
    ∧ ((build_from_plan
        (fun argv => if argv = ["docker", "build", "-t", "img", "/r"]
          then CmdResult.mk "bout" "berr" 1 else CmdResult.mk "" "" 0)
        ⟨"FROM x", "img", "c", [("8000", "8000")], [], [], [], none,
          some "sse", false⟩
        "/r" "srv" (some "/s") [("/r/app.py", .text "code")]).1
          = .buildFailed "bout" "berr" 1
      ∧ (∃ m, lookupFS (build_from_plan
            (fun argv => if argv = ["docker", "build", "-t", "img", "/r"]
              then CmdResult.mk "bout" "berr" 1 else CmdResult.mk "" "" 0)
            ⟨"FROM x", "img", "c", [("8000", "8000")], [], [], [], none,
              some "sse", false⟩
            "/r" "srv" (some "/s") [("/r/app.py", .text "code")]).2
            (metadataPathOf "/r" (some "/s")) = some (.jsonObj m)
          ∧ getA m "status" = some (.jstr "build_failed"))
      ∧ (lookupFS (build_from_plan
            (fun argv => if argv = ["docker", "build", "-t", "img", "/r"]
              then CmdResult.mk "bout" "berr" 1 else CmdResult.mk "" "" 0)
            ⟨"FROM x", "img", "c", [("8000", "8000")], [], [], [], none,
              some "sse", false⟩
            "/r" "srv" (some "/s") [("/r/app.py", .text "code")]).2
            "/r/app.py").isSome) := by
  refine ⟨by decide, by decide, ?_⟩
  have h := build_failed_reported
    (fun argv => if argv = ["docker", "build", "-t", "img", "/r"]
      then CmdResult.mk "bout" "berr" 1 else CmdResult.mk "" "" 0)
    ⟨"FROM x", "img", "c", [("8000", "8000")], [], [], [], none,
      some "sse", false⟩
    "/r" "srv" (some "/s") [("/r/app.py", .text "code")] (by decide)
    (by decide)
  exact ⟨h.1, h.2.1, h.2.2 "/r/app.py" (by decide)⟩

/-! ### C10 — absent `transport_type` defaults to network (sse) -/

/-- C10: when the plan has no `transport_type` field, the executor treats it
as sse: on a successful build (with the two `check=True` queries — the
timestamp and the image listing — also exiting zero, since their failure
takes the generic exception path) the returned dict records transport
`"sse"`, its run command is the detached base followed by one port-publish
flag per ports entry and the transport-independent tail, and the persisted
metadata records `transport_type = "sse"`. -/
theorem default_transport_sse (runner : List String → CmdResult)
    (plan : DockerPlan) (repo_path server_name : String)
    (server_dir : Option String) (fs : List (String × FileData))
    (hnone : plan.transport_type = none)
    (hdate : (runner dateCmd).returncode = 0)
    (hok : (runner (buildCmdOf plan repo_path)).returncode = 0)
    (hinfo : (runner (imageInfoCmd plan.image_name)).returncode = 0) :
    ∃ r, (build_from_plan runner plan repo_path server_name server_dir fs).1
        = .ok r
      ∧ r.transport_type = "sse"
      ∧ r.run_command = String.intercalate " "
          (["docker", "run", "-d", "--name", plan.container_name]
            ++ portFlagList plan.ports
            ++ envFlagList plan.environment_variables
            ++ secretFlagList plan.required_secrets
            ++ volFlagList plan.volumes
            ++ [plan.image_name]
            ++ startupTokens plan)
      ∧ (∃ m, lookupFS
            (build_from_plan runner plan repo_path server_name server_dir fs).2
            (metadataPathOf repo_path server_dir) = some (.jsonObj m)
          ∧ getA m "transport_type" = some (.jstr "sse")) := by
  have htr : transportOf plan = "sse" := by
    unfold transportOf
    rw [hnone]
    rfl
  have hstdio : is_stdio_of plan = false := by
    unfold is_stdio_of
    rw [hnone]
    decide
  unfold build_from_plan
  rw [if_neg (fun hne => hne hdate), if_neg (fun hne => hne hok),
    if_neg (fun hne => hne hinfo)]
  refine ⟨_, rfl, htr, ?_, ?_⟩
  · show run_command_of plan (is_stdio_of plan) = _
    rw [hstdio]
    unfold run_command_of
    rw [run_cmd_parts_eq]
    simp only [Bool.false_eq_true, if_false]
  · refine ⟨readyMetadata runner plan repo_path server_name, ?_, ?_⟩
    · exact lookupFS_writeFS_self _ _ _
    · unfold readyMetadata
      rw [getA_setKeyA_ne _ _ (by decide), getA_setKeyA_ne _ _ (by decide),
        getA_setKeyA_ne _ _ (by decide)]
      show getA (buildMetadata runner plan repo_path server_name)
        "transport_type" = some (.jstr "sse")
      unfold buildMetadata
      simp only [getA]
      rw [htr]
      simp

/-- C10 witness: a plan without a `transport_type` field, built with an
all-succeeding oracle. -/
theorem default_transport_sse_witness :
    (⟨"FROM x", "img", "c", [("8000", "9000")], [], [], [], none, none,
        false⟩ : DockerPlan).transport_type = none
    ∧ ((fun _ => CmdResult.mk "" "" 0) dateCmd).returncode = 0
    ∧ ((fun _ => CmdResult.mk "" "" 0)
        (buildCmdOf ⟨"FROM x", "img", "c", [("8000", "9000")], [], [], [],
          none, none, false⟩ "/r")).returncode = 0
    ∧ ((fun _ => CmdResult.mk "" "" 0) (imageInfoCmd "img")).returncode = 0
    ∧ ∃ r, (build_from_plan (fun _ => CmdResult.mk "" "" 0)
          ⟨"FROM x", "img", "c", [("8000", "9000")], [], [], [], none, none,
            false⟩ "/r" "srv" (some "/s") []).1 = .ok r
        ∧ r.transport_type = "sse"
        ∧ r.run_command = String.intercalate " "
            (["docker", "run", "-d", "--name", "c"]
              ++ portFlagList [("8000", "9000")] ++ envFlagList []
              ++ secretFlagList [] ++ volFlagList [] ++ ["img"]
              ++ startupTokens ⟨"FROM x", "img", "c", [("8000", "9000")],
                  [], [], [], none, none, false⟩)
        ∧ (∃ m, lookupFS (build_from_plan (fun _ => CmdResult.mk "" "" 0)
              ⟨"FROM x", "img", "c", [("8000", "9000")], [], [], [], none,
                none, false⟩ "/r" "srv" (some "/s") []).2
              (metadataPathOf "/r" (some "/s")) = some (.jsonObj m)
            ∧ getA m "transport_type" = some (.jstr "sse")) := by
  refine ⟨rfl, rfl, rfl, rfl, ?_⟩
  exact default_transport_sse (fun _ => CmdResult.mk "" "" 0)
    ⟨"FROM x", "img", "c", [("8000", "9000")], [], [], [], none, none,
      false⟩ "/r" "srv" (some "/s") [] rfl rfl rfl rfl

/-! ## `ServerManager.list`

One world entry per child of the servers directory.  A metadata file is
absent, unreadable/unparsable (`corrupt`), or a parsed JSON object.  The
per-entry `try` block routes any failure — unparsable JSON, or a field
whose type makes `transport_type.upper()` / `dict(ports)` raise — to that
entry's `ERROR` record and continues with the remaining entries. -/

/-- State of one installation's metadata file. -/
inductive MetaFile where
  | absent
  | corrupt
  | valid (m : List (String × Json))
deriving DecidableEq

/-- One child of the servers base directory. -/
structure DirEntry where
  name : String
  isDir : Bool
  metafile : MetaFile
deriving DecidableEq

/-- The world `list` observes. -/
structure ListWorld where
  servers_dir_exists : Bool
  entries : List DirEntry
deriving DecidableEq

/-- Model of Python `str.upper()` (ASCII). -/
def pyUpper (s : String) : String :=
  ⟨s.data.map Char.toUpper⟩

/-- Python truthiness of a JSON value. -/
def jsonTruthy : Json → Bool
  | .jnull => false
  | .jbool b => b
  | .jnum n => n != 0
  | .jstr s => !(s == "")
  | .jarr xs => !xs.isEmpty
  | .jmap fs => !fs.isEmpty

/-- Extract the fields of an `OK` listing row from parsed metadata:
`transport_type` (default `"unknown"`), the rendered ports
(`dict(ports) if ports else None`), `required_secrets`
(`... if ... else []`) and `created_at` (default `"unknown"`).  `none`
models the `.upper()` / `dict()` calls raising on a wrongly-typed field,
which the per-entry handler turns into an `ERROR` row. -/
def extractFields (m : List (String × Json)) :
    Option (String × Option (List (String × Json)) × Json × Json) :=
  match getA m "transport_type" with
  | some (.jbool _) | some (.jnum _) | some (.jarr _) | some (.jmap _)
  | some .jnull => none
  | h1 =>
    match getA m "ports" with
    | some (.jstr _) | some (.jnum _) | some (.jbool _)
    | some (.jarr (_ :: _)) => none
    | h2 =>
      some
        ((match h1 with | some (.jstr s) => s | _ => "unknown"),
         (match h2 with
          | some (.jmap (f :: fs)) => some (f :: fs)
          | _ => none),
         (match getA m "required_secrets" with
          | none => .jarr []
          | some v => if jsonTruthy v then v else .jarr []),
         (getA m "created_at").getD (.jstr "unknown"))

/-- One row of the listing. -/
inductive ServerEntry where
  | ok (name repository transport : String)
      (ports : Option (List (String × Json))) (required_secrets : Json)
      (created : Json)
  | err (name error_msg : String)
deriving DecidableEq

/-- The `status` field of a row. -/
def entryStatus : ServerEntry → String
  | .ok _ _ _ _ _ _ => "OK"
  | .err _ _ => "ERROR"

/-- The `repository` field of an `OK` row. -/
def entryRepository : ServerEntry → Option String
  | .ok _ rep _ _ _ _ => some rep
  | .err _ _ => none

/-- The best-effort remote-URL lookup argv for one installation. -/
def gitRemoteCmd (servers_dir name : String) : List String :=
  ["git", "-C", servers_dir ++ "/" ++ name, "remote", "get-url", "origin"]

/-- The repository field: the trimmed stdout of
`git -C <dir> remote get-url origin` when it exits zero, else
`"unknown"`. -/
def repoUrlOf (runner : List String → CmdResult) (servers_dir name : String) :
    String :=
  if (runner (gitRemoteCmd servers_dir name)).returncode = 0
  then pyStripS (runner (gitRemoteCmd servers_dir name)).stdout
  else "unknown"

/-- Process one directory entry into its listing row. -/
def listEntry (runner : List String → CmdResult) (servers_dir : String)
    (e : DirEntry) : ServerEntry :=
  match e.metafile with
  | .absent => .err e.name "Missing metadata.json (corrupted installation)"
  | .corrupt => .err e.name "Failed to read metadata"
  | .valid m =>
    match extractFields m with
    | none => .err e.name "Failed to read metadata"
    | some (tt, po, rs, ca) =>
        .ok e.name (repoUrlOf runner servers_dir e.name) (pyUpper tt) po rs ca

/-- Outcome of `ServerManager.list`: both variants carry `success = True`;
`noDir` is the "No MCP servers installed yet." message, `listing` carries
the rows (and their count). -/
inductive ListResult where
  | noDir
  | listing (servers : List ServerEntry)
deriving DecidableEq

/-- Model of `ServerManager.list`: enumerate the base directory, skip
non-directories, and render one row per installation. -/
def list_servers (runner : List String → CmdResult) (servers_dir : String)
    (w : ListWorld) : ListResult :=
  if w.servers_dir_exists then
    .listing ((w.entries.filter (fun e => e.isDir)).map
      (listEntry runner servers_dir))
  else .noDir

/-! ### C9 — one bad metadata file does not poison the listing -/

/-- C9: over `N` installation directories of which exactly one has a
missing or corrupt metadata file, `list` succeeds with exactly `N` rows —
the bad one `ERROR`, every other one `OK` — and for any well-formed entry
whose remote-URL lookup exits non-zero the repository field degrades to
`"unknown"`; the listing is produced for every oracle, so a failing lookup
never aborts it. -/
theorem list_error_isolation (runner : List String → CmdResult)
    (servers_dir : String) (pre post : List DirEntry) (bad : DirEntry)
    (hdirs : ∀ e ∈ pre ++ [bad] ++ post, e.isDir = true)
    (hbad : bad.metafile = .absent ∨ bad.metafile = .corrupt)
    (hgood : ∀ e ∈ pre ++ post,
      ∃ m, e.metafile = .valid m ∧ (extractFields m).isSome) :
    ∃ spre spost e0,
      list_servers runner servers_dir ⟨true, pre ++ [bad] ++ post⟩
          = .listing (spre ++ [e0] ++ spost)
        ∧ spre.length = pre.length ∧ spost.length = post.length
        ∧ entryStatus e0 = "ERROR"
        ∧ (∀ s ∈ spre ++ spost, entryStatus s = "OK")
        ∧ (∀ e ∈ pre ++ post,
            (runner (gitRemoteCmd servers_dir e.name)).returncode ≠ 0 →
            entryRepository (listEntry runner servers_dir e)
              = some "unknown") := by
  have hstat : ∀ e ∈ pre ++ post,
      entryStatus (listEntry runner servers_dir e) = "OK" := by
    intro e he
    obtain ⟨m, hm, hext⟩ := hgood e he
    rw [Option.isSome_iff_exists] at hext
    obtain ⟨⟨tt, po, rs, ca⟩, hx⟩ := hext
    simp [listEntry, hm, hx, entryStatus]
  refine ⟨pre.map (listEntry runner servers_dir),
    post.map (listEntry runner servers_dir),
    listEntry runner servers_dir bad, ?_, ?_, ?_, ?_, ?_, ?_⟩
  · unfold list_servers
    rw [if_pos rfl]
    have hfil : (pre ++ [bad] ++ post).filter (fun e => e.isDir)
        = pre ++ [bad] ++ post := List.filter_eq_self.mpr hdirs
    show ListResult.listing ((List.filter (fun e => e.isDir)
        (pre ++ [bad] ++ post)).map (listEntry runner servers_dir)) = _
    rw [hfil, List.map_append, List.map_append]
    rfl
  · exact List.length_map pre _
  · exact List.length_map post _
  · rcases hbad with h | h <;> simp [listEntry, h, entryStatus]
  · intro s hs
    rcases List.mem_append.mp hs with h | h
    · obtain ⟨e, he, hfe⟩ := List.mem_map.mp h
      rw [← hfe]
      exact hstat e (List.mem_append.mpr (Or.inl he))
    · obtain ⟨e, he, hfe⟩ := List.mem_map.mp h
      rw [← hfe]
      exact hstat e (List.mem_append.mpr (Or.inr he))
  · intro e he hgit
    obtain ⟨m, hm, hext⟩ := hgood e he
    rw [Option.isSome_iff_exists] at hext
    obtain ⟨⟨tt, po, rs, ca⟩, hx⟩ := hext
    have hurl : repoUrlOf runner servers_dir e.name = "unknown" := by
      unfold repoUrlOf
      rw [if_neg hgit]
    simp [listEntry, hm, hx, entryRepository, hurl]

/-- C9 witness: three directories with the middle one's metadata corrupt,
under an oracle whose remote lookup fails for the first entry. -/
theorem list_error_isolation_witness :
    (∀ e ∈ [(⟨"s1", true, .valid [("transport_type", Json.jstr "sse")]⟩ :
          DirEntry)] ++
        [⟨"s3", true, .valid []⟩],
      ∃ m, e.metafile = .valid m ∧ (extractFields m).isSome)
    ∧ ∃ spre spost e0,
        list_servers
            (fun argv => if argv = gitRemoteCmd "/base" "s1"
              then CmdResult.mk "" "boom" 1
              else CmdResult.mk "git@x:o/r.git\n" "" 0)
            "/base"
            ⟨true, [⟨"s1", true, .valid [("transport_type", Json.jstr "sse")]⟩,
                    ⟨"s2", true, .corrupt⟩,
                    ⟨"s3", true, .valid []⟩]⟩
          = .listing (spre ++ [e0] ++ spost)
        ∧ spre.length = 1 ∧ spost.length = 1
        ∧ entryStatus e0 = "ERROR"
        ∧ (∀ s ∈ spre ++ spost, entryStatus s = "OK")
        ∧ entryRepository (listEntry
            (fun argv => if argv = gitRemoteCmd "/base" "s1"
              then CmdResult.mk "" "boom" 1
              else CmdResult.mk "git@x:o/r.git\n" "" 0)
            "/base" ⟨"s1", true, .valid [("transport_type", Json.jstr "sse")]⟩)
          = some "unknown" := by
  have hgood : ∀ e ∈ [(⟨"s1", true,
        .valid [("transport_type", Json.jstr "sse")]⟩ : DirEntry)] ++
      [⟨"s3", true, .valid []⟩],
      ∃ m, e.metafile = .valid m ∧ (extractFields m).isSome := by
    intro e he
    rcases List.mem_append.mp he with h | h
    · rcases List.mem_singleton.mp h with h2
      exact h2 ▸ ⟨[("transport_type", Json.jstr "sse")], rfl, by decide⟩
    · rcases List.mem_singleton.mp h with h2
      exact h2 ▸ ⟨[], rfl, by decide⟩
  have h := list_error_isolation
    (fun argv => if argv = gitRemoteCmd "/base" "s1"
      then CmdResult.mk "" "boom" 1
      else CmdResult.mk "git@x:o/r.git\n" "" 0)
    "/base"
    [⟨"s1", true, .valid [("transport_type", Json.jstr "sse")]⟩]
    [⟨"s3", true, .valid []⟩]
    ⟨"s2", true, .corrupt⟩
    (by decide) (by decide) hgood
  obtain ⟨spre, spost, e0, h1, h2, h3, h4, h5, h6⟩ := h
  refine ⟨hgood, spre, spost, e0, h1, h2, h3, h4, h5, ?_⟩
  exact h6 ⟨"s1", true, .valid [("transport_type", Json.jstr "sse")]⟩
    (by simp) (by decide)

/-! ## `ServerManager.install` (lines 19-43)

The world holds the set of installation directories and the files inside
them.  The modelled steps are identity resolution, the already-exists check,
the force cleanup, the clone (whose directory is the clone's side effect;
the collaborator raises on non-zero exit, caught by the outer handler), the
context precondition check, and the `repo_path` computation.  The
analysis/planning/build continuation entered on `.proceeds` is exercised
through `parse_plan` and `build_from_plan` above. -/

/-- The filesystem/directory state install mutates. -/
structure IWorld where
  dirs : List String
  files : List (String × FileData)
deriving DecidableEq

/-- `s.startswith(pre)` on `String`. -/
def startsWithS (pre s : String) : Bool :=
  startsWithL pre.data s.data

/-- Model of `shutil.rmtree`: drop the directory and every file under it. -/
def removeTree (w : IWorld) (d : String) : IWorld :=
  ⟨w.dirs.filter (fun x => x != d),
   w.files.filter (fun pf => !(startsWithS (d ++ "/") pf.1))⟩

/-- `server_dir = self.servers_dir / server_name`. -/
def serverDirOf (servers_dir : String) (info : UrlInfo) : String :=
  servers_dir ++ "/" ++ ⟨info.server_name⟩

/-- The clone argv `GitHubService.clone` runs. -/
def cloneCmdOf (info : UrlInfo) (server_dir : String) : List String :=
  ["git", "clone", "--branch", ⟨info.branch⟩, ⟨info.clone_url⟩, server_dir]

/-- The force-reinstall cleanup (lines 32-33). -/
def afterClean (servers_dir : String) (info : UrlInfo) (w : IWorld) : IWorld :=
  if serverDirOf servers_dir info ∈ w.dirs
  then removeTree w (serverDirOf servers_dir info) else w

/-- Record the directory a successful clone creates. -/
def addDir (w : IWorld) (d : String) : IWorld :=
  ⟨w.dirs ++ [d], w.files⟩

/-- `repo_path = server_dir / repo_info["path"] if repo_info["path"] else
server_dir` (line 43). -/
def repoPathOf (servers_dir : String) (info : UrlInfo) : String :=
  if info.path.isEmpty then serverDirOf servers_dir info
  else serverDirOf servers_dir info ++ "/" ++ ⟨info.path⟩

/-- Outcome of the modelled prefix of `install`, one constructor per return
site: the `ValueError` from an unrecognised reference (outer handler), the
already-exists refusal, the clone failure (outer handler), the
`"No request context available for analysis"` error, and control reaching
the analysis stage. -/
inductive InstallResult where
  | parseError
  | alreadyExists (server_name : String)
  | cloneFailed
  | noContext
  | proceeds (server_name repo_path : String)
deriving DecidableEq

/-- Model of `ServerManager.install` lines 19-43.  Note the order the
source fixes: the clone at line 35 runs *before* the context check at
line 37. -/
def install (runner : List String → CmdResult) (url : List Char)
    (force : Bool) (ctx : Bool) (servers_dir : String) (w : IWorld) :
    InstallResult × IWorld :=
  match parse_url url with
  | none => (.parseError, w)
  | some info =>
    if serverDirOf servers_dir info ∈ w.dirs ∧ ¬force then
      (.alreadyExists ⟨info.server_name⟩, w)
    else if (runner (cloneCmdOf info (serverDirOf servers_dir info))).returncode
        ≠ 0 then
      (.cloneFailed, afterClean servers_dir info w)
    else if ¬ctx then
      (.noContext,
       addDir (afterClean servers_dir info w) (serverDirOf servers_dir info))
    else
      (.proceeds ⟨info.server_name⟩ (repoPathOf servers_dir info),
       addDir (afterClean servers_dir info w) (serverDirOf servers_dir info))

/-! ### C1 — missing context is reported only after the clone -/

theorem lookupFS_filter_isSome {files : List (String × FileData)}
    {pred : String × FileData → Bool} {p : String}
    (h : (lookupFS (files.filter pred) p).isSome) :
    (lookupFS files p).isSome := by
  induction files with
  | nil => simp [lookupFS] at h
  | cons qd rest ih =>
      obtain ⟨q, d⟩ := qd
      by_cases hq : q = p
      · simp [lookupFS, hq]
      · simp only [lookupFS, hq, if_false]
        cases hpred : pred (q, d) with
        | true =>
            rw [List.filter_cons_of_pos hpred] at h
            simp only [lookupFS, hq, if_false] at h
            exact ih h
        | false =>
            rw [List.filter_cons_of_neg (by simp [hpred])] at h
            exact ih h

theorem afterClean_files_isSome {servers_dir : String} {info : UrlInfo}
    {w : IWorld} {p : String}
    (h : (lookupFS (afterClean servers_dir info w).files p).isSome) :
    (lookupFS w.files p).isSome := by
  unfold afterClean at h
  split at h
  · exact lookupFS_filter_isSome h
  · exact h

/-- C1 counterexample: with the analysis context absent, a fresh name and a
succeeding clone, `install` does return the NoContext error — but the
installation directory exists in the post-state (the source was cloned
before the check), contradicting "no directory is created, no source is
cloned". -/
theorem install_no_context_cex :
    (install (fun _ => CmdResult.mk "" "" 0)
        "https://github.com/o/r".data false false "/base" ⟨[], []⟩).1
      = .noContext
    ∧ "/base/o-r" ∈ (install (fun _ => CmdResult.mk "" "" 0)
        "https://github.com/o/r".data false false "/base" ⟨[], []⟩).2.dirs := by
  exact ⟨by decide, by decide⟩

/-- C1 (amended): for every install invocation with the analysis context
absent, a recognised reference, no already-exists refusal, and a succeeding
clone, the operation fails with the NoContext error — reported only after
the source is cloned: the installation directory is present in the
post-state, while no metadata (indeed no file at all) has been written. -/
theorem install_noContext_after_clone (runner : List String → CmdResult)
    (url : List Char) (force : Bool) (servers_dir : String) (w : IWorld)
    (info : UrlInfo)
    (hurl : parse_url url = some info)
    (hpre : ¬(serverDirOf servers_dir info ∈ w.dirs ∧ ¬force))
    (hclone : (runner (cloneCmdOf info (serverDirOf servers_dir info))).returncode
      = 0) :
    (install runner url force false servers_dir w).1 = .noContext
      ∧ serverDirOf servers_dir info
          ∈ (install runner url force false servers_dir w).2.dirs
      ∧ ∀ p, (lookupFS (install runner url force false servers_dir w).2.files
            p).isSome →
          (lookupFS w.files p).isSome := by
  have hinst : install runner url force false servers_dir w
      = (.noContext,
         addDir (afterClean servers_dir info w)
           (serverDirOf servers_dir info)) := by
    unfold install
    rw [hurl]
    show (if serverDirOf servers_dir info ∈ w.dirs ∧ ¬force then
        (InstallResult.alreadyExists ⟨info.server_name⟩, w)
      else if (runner (cloneCmdOf info
          (serverDirOf servers_dir info))).returncode ≠ 0 then
        (.cloneFailed, afterClean servers_dir info w)
      else if ¬(false : Bool) then
        (.noContext,
         addDir (afterClean servers_dir info w) (serverDirOf servers_dir info))
      else
        (.proceeds ⟨info.server_name⟩ (repoPathOf servers_dir info),
         addDir (afterClean servers_dir info w)
           (serverDirOf servers_dir info))) = _
    rw [if_neg hpre, if_neg (fun hne => hne hclone), if_pos (by decide)]
  rw [hinst]
  refine ⟨rfl, ?_, ?_⟩
  · simp [addDir]
  · intro p hp
    exact afterClean_files_isSome hp

/-- C1 witness for the amended claim, at the counterexample's input. -/
theorem install_noContext_after_clone_witness :
    parse_url "https://github.com/o/r".data
        = some ⟨"o".data, "r".data, "main".data, [], "o-r".data,
                "https://github.com/o/r.git".data⟩
    ∧ (install (fun _ => CmdResult.mk "" "" 0) "https://github.com/o/r".data
          false false "/base" ⟨[], [("/etc/x", .text "y")]⟩).1 = .noContext
    ∧ serverDirOf "/base" ⟨"o".data, "r".data, "main".data, [], "o-r".data,
          "https://github.com/o/r.git".data⟩
        ∈ (install (fun _ => CmdResult.mk "" "" 0)
            "https://github.com/o/r".data false false "/base"
            ⟨[], [("/etc/x", .text "y")]⟩).2.dirs
    ∧ ∀ p, (lookupFS (install (fun _ => CmdResult.mk "" "" 0)
          "https://github.com/o/r".data false false "/base"
          ⟨[], [("/etc/x", .text "y")]⟩).2.files p).isSome →
        (lookupFS [("/etc/x", FileData.text "y")] p).isSome := by
  have h := install_noContext_after_clone (fun _ => CmdResult.mk "" "" 0)
    "https://github.com/o/r".data false "/base" ⟨[], [("/etc/x", .text "y")]⟩
    ⟨"o".data, "r".data, "main".data, [], "o-r".data,
      "https://github.com/o/r.git".data⟩
    (by decide) (by decide) rfl
  exact ⟨by decide, h.1, h.2.1, h.2.2⟩

end McpSinstaller
